import Mathlib

/-!
Verification development for the cloud-observability log-forwarder.

The Go sources are shallowly embedded: Go strings are lists of characters
(lists of bytes where byte-level behaviour matters), Go maps are association
lists, stateful methods are explicit state-passing functions, fallible code
returns Option or an explicit error union. Each definition is translated
from the corresponding Go function; definitions modelled from the written
specification (because the matching source revision is absent) say so in
their doc comment.
-/

set_option maxRecDepth 10000

/-- Go strings viewed as sequences of runes (characters). -/
abbrev Str := List Char

/-- Decides unicode.IsSpace for the code points that can occur in the
pipeline inputs: the ASCII space class plus U+0085 and U+00A0. -/
def isGoSpace (c : Char) : Bool :=
  c = ' ' || c = '\t' || c = '\n' || c = '\r' ||
  c.toNat = 11 || c.toNat = 12 || c.toNat = 0x85 || c.toNat = 0xA0

/-- Accumulator loop for the strings.Fields split. -/
def fieldsAux : Str → Str → List Str
  | [], acc => if acc.isEmpty then [] else [acc.reverse]
  | c :: rest, acc =>
    if isGoSpace c then
      if acc.isEmpty then fieldsAux rest [] else acc.reverse :: fieldsAux rest []
    else fieldsAux rest (c :: acc)

/-- strings.Fields: split a string around runs of white space. -/
def goFields (s : Str) : List Str := fieldsAux s []

/-- Decimal digit test used by strconv parsing and account-id validation. -/
def isDigitChar (c : Char) : Bool := '0' ≤ c ∧ c ≤ '9'

/-- Value of a nonempty all-digit string, as a natural number. -/
def digitsToNat? (s : Str) : Option Nat :=
  if s.isEmpty then none
  else if s.all isDigitChar then
    some (s.foldl (fun acc c => acc * 10 + (c.toNat - '0'.toNat)) 0)
  else none

/-- strconv.ParseInt with base 10 and bit size 64: optional sign, decimal
digits, error when empty, malformed, or out of the int64 range. -/
def goParseInt64 (s : Str) : Option Int :=
  match s with
  | '+' :: rest =>
    (digitsToNat? rest).bind fun n =>
      if n ≤ 2 ^ 63 - 1 then some (n : Int) else none
  | '-' :: rest =>
    (digitsToNat? rest).bind fun n =>
      if n ≤ 2 ^ 63 then some (-(n : Int)) else none
  | _ =>
    (digitsToNat? s).bind fun n =>
      if n ≤ 2 ^ 63 - 1 then some (n : Int) else none

/-- parseInt64 from handler_parser.go: parse a string to int64, returning 0
on error. -/
def parseInt64 (s : Str) : Int := (goParseInt64 s).getD 0

/-! ## Flow-log format cache (constants.go, flowLogFormatCache) -/

/-- flowLogFormatCacheEntry: a cached flow log format with metadata.
Timestamps are integers (nanoseconds of the process clock). -/
structure FlowLogFormatCacheEntry where
  logFormat : Str
  flowLogId : Str
  flowLogsCount : Int
  cachedAt : Int
  deriving Repr, DecidableEq

/-- flowLogFormatCache: map from log-group name to cached entry, plus the
configured TTL. The sync.RWMutex only serialises access and is not part of
the sequential state. -/
structure FlowLogFormatCache where
  entries : List (Str × FlowLogFormatCacheEntry)
  cacheTTL : Int
  deriving Repr, DecidableEq

/-- Lookup in the entries map (keys are unique by construction of set). -/
def cacheFind (es : List (Str × FlowLogFormatCacheEntry)) (k : Str) :
    Option FlowLogFormatCacheEntry :=
  (es.find? (fun p => p.1 = k)).map Prod.snd

/-- Result quadruple of flowLogFormatCache.get. -/
structure CacheGetResult where
  logFormat : Str
  flowLogId : Str
  flowLogsCount : Int
  found : Bool
  deriving Repr, DecidableEq

/-- flowLogFormatCache.get: retrieve a cached entry if it exists and has not
expired; an entry older than the TTL is deleted (the double-checked
write-lock re-check collapses in this sequential embedding) and a miss is
returned. The current time is passed explicitly. -/
def FlowLogFormatCache.get (c : FlowLogFormatCache) (now : Int) (k : Str) :
    CacheGetResult × FlowLogFormatCache :=
  match cacheFind c.entries k with
  | none => (⟨[], [], 0, false⟩, c)
  | some e =>
    if now - e.cachedAt > c.cacheTTL then
      (⟨[], [], 0, false⟩,
        { c with entries := c.entries.filter (fun p => ¬ p.1 = k) })
    else
      (⟨e.logFormat, e.flowLogId, e.flowLogsCount, true⟩, c)

/-- flowLogFormatCache.set: store a new entry, overwriting any prior entry
for the key and stamping the current time. -/
def FlowLogFormatCache.set (c : FlowLogFormatCache) (now : Int) (k : Str)
    (logFormat flowLogId : Str) (flowLogsCount : Int) : FlowLogFormatCache :=
  { c with entries :=
      (k, ⟨logFormat, flowLogId, flowLogsCount, now⟩) ::
        c.entries.filter (fun p => ¬ p.1 = k) }

theorem cacheFind_set_same (c : FlowLogFormatCache) (now : Int) (k : Str)
    (f i : Str) (n : Int) :
    cacheFind (c.set now k f i n).entries k = some ⟨f, i, n, now⟩ := by
  simp [FlowLogFormatCache.set, cacheFind, List.find?_cons]

/-- C4: after set(k, format, id, count) at time t0, a get(k) at time t1 hits
iff t1 - t0 is at most the TTL and then returns the stored tuple; a get that
observes an entry older than the TTL deletes it and misses; and set
overwrites any prior entry for the key, stamping the set time t0. -/
theorem format_cache_ttl_contract (c : FlowLogFormatCache) (k : Str)
    (f i : Str) (n : Int) (t0 t1 : Int) :
    let c1 := c.set t0 k f i n
    (((c1.get t1 k).1.found = true) ↔ t1 - t0 ≤ c.cacheTTL) ∧
    (t1 - t0 ≤ c.cacheTTL →
      (c1.get t1 k).1 = ⟨f, i, n, true⟩ ∧ (c1.get t1 k).2 = c1) ∧
    (t1 - t0 > c.cacheTTL →
      (c1.get t1 k).1.found = false ∧
      cacheFind ((c1.get t1 k).2).entries k = none) ∧
    cacheFind c1.entries k = some ⟨f, i, n, t0⟩ := by
  have hfind : cacheFind (c.set t0 k f i n).entries k = some ⟨f, i, n, t0⟩ :=
    cacheFind_set_same c t0 k f i n
  have httl : (c.set t0 k f i n).cacheTTL = c.cacheTTL := rfl
  by_cases hle : t1 - t0 ≤ c.cacheTTL
  · have hget : (c.set t0 k f i n).get t1 k = (⟨f, i, n, true⟩, c.set t0 k f i n) := by
      simp only [FlowLogFormatCache.get, hfind, httl]
      rw [if_neg (by omega)]
    refine ⟨?_, ?_, ?_, hfind⟩
    · simp [hget, hle]
    · intro _; simp [hget]
    · intro h; omega
  · have hget1 : ((c.set t0 k f i n).get t1 k).1 = ⟨[], [], 0, false⟩ := by
      simp only [FlowLogFormatCache.get, hfind, httl]
      rw [if_pos (by omega)]
    have hget2 : ((c.set t0 k f i n).get t1 k).2 =
        { c.set t0 k f i n with
          entries := (c.set t0 k f i n).entries.filter (fun p => ¬ p.1 = k) } := by
      simp only [FlowLogFormatCache.get, hfind, httl]
      rw [if_pos (by omega)]
    refine ⟨?_, ?_, ?_, hfind⟩
    · rw [hget1]
      exact iff_of_false (by simp) hle
    · intro h; omega
    · intro _
      refine ⟨by rw [hget1], ?_⟩
      rw [hget2]
      simp [cacheFind, List.find?_filter]

/-- Witness for C4 at TTL 100, set at t0 = 0, gets at t1 = 50 and t1 = 200. -/
theorem format_cache_ttl_contract_witness :
    let c : FlowLogFormatCache := ⟨[], 100⟩
    let c1 := c.set 0 ['g'] ['f'] ['1'] 1
    (c1.get 50 ['g']).1 = ⟨['f'], ['1'], 1, true⟩ ∧
    (c1.get 200 ['g']).1.found = false ∧
    cacheFind ((c1.get 200 ['g']).2).entries ['g'] = none := by
  have h50 := format_cache_ttl_contract ⟨[], 100⟩ ['g'] ['f'] ['1'] 1 0 50
  have h200 := format_cache_ttl_contract ⟨[], 100⟩ ['g'] ['f'] ['1'] 1 0 200
  refine ⟨(h50.2.1 (by norm_num)).1, ?_, ?_⟩
  · exact (h200.2.2.1 (by norm_num)).1
  · exact (h200.2.2.1 (by norm_num)).2

/-! ## Byte-level strings and UTF-8 (for sanitizeAttributeValue)

Go strings are byte sequences; ranging over a string decodes UTF-8 and
len and slicing work on bytes. Bytes are naturals below 256 and runes are
code points. -/

/-- Bytes of a Go string. -/
abbrev Bytes := List Nat

/-- utf8.EncodeRune: encode one code point; surrogates and out-of-range
values encode the replacement character U+FFFD, as Go string conversion
does. -/
def utf8EncodeRune (r : Nat) : Bytes :=
  if r < 0x80 then [r]
  else if r < 0x800 then [0xC0 + r / 64, 0x80 + r % 64]
  else if 0xD800 ≤ r ∧ r ≤ 0xDFFF then [0xEF, 0xBF, 0xBD]
  else if r < 0x10000 then [0xE0 + r / 4096, 0x80 + (r / 64) % 64, 0x80 + r % 64]
  else if r ≤ 0x10FFFF then
    [0xF0 + r / 0x40000, 0x80 + (r / 4096) % 64, 0x80 + (r / 64) % 64, 0x80 + r % 64]
  else [0xEF, 0xBF, 0xBD]

/-- string(runes): encode a rune slice back to bytes. -/
def utf8EncodeRunes (rs : List Nat) : Bytes := (rs.map utf8EncodeRune).flatten

/-- Lower bound of the accepted second byte, per the utf8 package first-byte
table: 0xE0 and 0xF0 have raised lower bounds (no overlong forms). -/
def utf8AcceptLo (b0 : Nat) : Nat :=
  if b0 = 0xE0 then 0xA0 else if b0 = 0xF0 then 0x90 else 0x80

/-- Upper bound of the accepted second byte: 0xED excludes surrogates and
0xF4 caps at U+10FFFF. -/
def utf8AcceptHi (b0 : Nat) : Nat :=
  if b0 = 0xED then 0x9F else if b0 = 0xF4 then 0x8F else 0xBF

/-- Byte of a string at an index, with a default of 0x00 for a missing
index; 0x00 is never a continuation byte, so a truncated sequence fails the
range checks exactly as in the utf8 package. -/
def byteAt (bs : Bytes) (i : Nat) : Nat := bs.getD i 0x00

/-- utf8.DecodeRune: decode the first code point of a byte sequence,
returning the rune and the number of bytes consumed; every invalid or
truncated sequence yields (U+FFFD, 1). -/
def utf8DecodeOne : Bytes → Nat × Nat
  | [] => (0xFFFD, 0)
  | b0 :: rest =>
    if b0 < 0x80 then (b0, 1)
    else if b0 < 0xC2 then (0xFFFD, 1)
    else if b0 < 0xE0 then
      if utf8AcceptLo b0 ≤ byteAt rest 0 ∧ byteAt rest 0 ≤ utf8AcceptHi b0 then
        ((b0 - 0xC0) * 64 + (byteAt rest 0 - 0x80), 2)
      else (0xFFFD, 1)
    else if b0 < 0xF0 then
      if (utf8AcceptLo b0 ≤ byteAt rest 0 ∧ byteAt rest 0 ≤ utf8AcceptHi b0) ∧
          (0x80 ≤ byteAt rest 1 ∧ byteAt rest 1 ≤ 0xBF) then
        ((b0 - 0xE0) * 4096 + (byteAt rest 0 - 0x80) * 64 + (byteAt rest 1 - 0x80), 3)
      else (0xFFFD, 1)
    else if b0 < 0xF5 then
      if (utf8AcceptLo b0 ≤ byteAt rest 0 ∧ byteAt rest 0 ≤ utf8AcceptHi b0) ∧
          (0x80 ≤ byteAt rest 1 ∧ byteAt rest 1 ≤ 0xBF) ∧
          (0x80 ≤ byteAt rest 2 ∧ byteAt rest 2 ≤ 0xBF) then
        ((b0 - 0xF0) * 0x40000 + (byteAt rest 0 - 0x80) * 4096 +
          (byteAt rest 1 - 0x80) * 64 + (byteAt rest 2 - 0x80), 4)
      else (0xFFFD, 1)
    else (0xFFFD, 1)

/-- Fuelled loop decoding a whole byte string rune by rune (the for-range
loop over a Go string). The fuel is an upper bound on the byte length, so
the definition is structural and computable. -/
def utf8DecodeGo : Nat → Bytes → List Nat
  | _, [] => []
  | 0, _ :: _ => []
  | fuel + 1, b :: bs =>
    (utf8DecodeOne (b :: bs)).1 ::
      utf8DecodeGo fuel (bs.drop ((utf8DecodeOne (b :: bs)).2 - 1))

/-- Runes obtained by ranging over a Go string. -/
def utf8Decode (bs : Bytes) : List Nat := utf8DecodeGo bs.length bs

theorem utf8DecodeGo_fuel : ∀ (fuel : Nat) (bs : Bytes), bs.length ≤ fuel →
    utf8DecodeGo fuel bs = utf8DecodeGo bs.length bs := by
  intro fuel
  induction fuel using Nat.strong_induction_on with
  | _ fuel ih =>
    intro bs h
    match fuel, bs with
    | f, [] => cases f <;> simp [utf8DecodeGo]
    | 0, b :: bs => simp at h
    | f + 1, b :: bs =>
      simp only [utf8DecodeGo, List.length_cons]
      have hdrop : (bs.drop ((utf8DecodeOne (b :: bs)).2 - 1)).length ≤ bs.length := by
        simp [List.length_drop]
      simp only [List.length_cons] at h
      rw [ih f (by omega) _ (by omega), ih bs.length (by omega) _ (by omega)]

/-- Unfolding equation for utf8Decode on a nonempty string. -/
theorem utf8Decode_cons (b : Nat) (bs : Bytes) :
    utf8Decode (b :: bs) =
      (utf8DecodeOne (b :: bs)).1 ::
        utf8Decode (bs.drop ((utf8DecodeOne (b :: bs)).2 - 1)) := by
  have hdrop : (bs.drop ((utf8DecodeOne (b :: bs)).2 - 1)).length ≤ bs.length := by
    simp [List.length_drop]
  simp only [utf8Decode, List.length_cons, utf8DecodeGo]
  rw [utf8DecodeGo_fuel bs.length _ (by omega)]

/-- sanitizeAttributeValue from handler_metrics.go: keep the runes accepted
by the printability predicate, re-encode, then truncate the BYTE string to
maxLength bytes. The unicode.IsPrint classifier is a parameter of the
embedding. -/
def sanitizeAttributeValue (isPrint : Nat → Bool) (value : Bytes)
    (maxLength : Nat) : Bytes :=
  let sanitized := utf8EncodeRunes ((utf8Decode value).filter isPrint)
  if maxLength < sanitized.length then sanitized.take maxLength else sanitized

/-- MaxAttributeLength from constants.go. -/
def MaxAttributeLength : Nat := 255

/-- Modelled from Go unicode.IsPrint, restricted to the code points this
development evaluates concretely: the ASCII range is exact (graphic ASCII
plus the space), and of the non-ASCII code points only U+20AC and U+FFFD
occur here, both printable in Go. -/
def unicodeIsPrint (r : Nat) : Bool :=
  (0x20 ≤ r && r ≤ 0x7E) || r = 0x20AC || r = 0xFFFD

/-- Unicode scalar values: what utf8 decoding can produce and what Go rune
slices obtained from decoding contain. -/
def validScalar (r : Nat) : Prop := r < 0xD800 ∨ (0xE000 ≤ r ∧ r ≤ 0x10FFFF)

theorem utf8Decode_nil : utf8Decode [] = [] := by
  simp [utf8Decode, utf8DecodeGo]

set_option maxHeartbeats 1600000 in
theorem utf8DecodeOne_enc (r : Nat) (bs : Bytes) (h : validScalar r) :
    utf8DecodeOne (utf8EncodeRune r ++ bs) = (r, (utf8EncodeRune r).length) := by
  by_cases h1 : r < 0x80
  · have henc : utf8EncodeRune r = [r] := by
      rw [utf8EncodeRune, if_pos h1]
    rw [henc]
    simp only [utf8DecodeOne, List.cons_append, List.nil_append, List.length_cons,
      List.length_nil, if_pos h1]
  · by_cases h2 : r < 0x800
    · have henc : utf8EncodeRune r = [0xC0 + r / 64, 0x80 + r % 64] := by
        rw [utf8EncodeRune, if_neg h1, if_pos h2]
      rw [henc]
      simp only [utf8DecodeOne, utf8AcceptLo, utf8AcceptHi, byteAt,
        List.getD_cons_zero, List.getD_cons_succ, List.cons_append,
        List.nil_append, List.length_cons, List.length_nil]
      split_ifs <;> first | omega | (rw [Prod.mk.injEq]; exact ⟨by omega, rfl⟩)
    · by_cases h3 : r < 0x10000
      · have hs : ¬ (0xD800 ≤ r ∧ r ≤ 0xDFFF) := by
          rcases h with h | h <;> omega
        have henc : utf8EncodeRune r =
            [0xE0 + r / 4096, 0x80 + (r / 64) % 64, 0x80 + r % 64] := by
          rw [utf8EncodeRune, if_neg h1, if_neg h2, if_neg hs, if_pos h3]
        rw [henc]
        simp only [utf8DecodeOne, utf8AcceptLo, utf8AcceptHi, byteAt,
          List.getD_cons_zero, List.getD_cons_succ, List.cons_append,
          List.nil_append, List.length_cons, List.length_nil]
        have hv : r < 0xD800 ∨ 0xE000 ≤ r := by
          rcases h with h | h
          · exact Or.inl h
          · exact Or.inr h.1
        split_ifs <;> first | omega | (rw [Prod.mk.injEq]; exact ⟨by omega, rfl⟩)
      · have h4 : r ≤ 0x10FFFF := by rcases h with h | h <;> omega
        have hs : ¬ (0xD800 ≤ r ∧ r ≤ 0xDFFF) := by omega
        have henc : utf8EncodeRune r =
            [0xF0 + r / 0x40000, 0x80 + (r / 4096) % 64,
              0x80 + (r / 64) % 64, 0x80 + r % 64] := by
          rw [utf8EncodeRune, if_neg h1, if_neg h2, if_neg hs, if_neg h3, if_pos h4]
        rw [henc]
        simp only [utf8DecodeOne, utf8AcceptLo, utf8AcceptHi, byteAt,
          List.getD_cons_zero, List.getD_cons_succ, List.cons_append,
          List.nil_append, List.length_cons, List.length_nil]
        split_ifs <;> first | omega | (rw [Prod.mk.injEq]; exact ⟨by omega, rfl⟩)

theorem utf8EncodeRune_ne_nil (r : Nat) : utf8EncodeRune r ≠ [] := by
  rw [utf8EncodeRune]
  split_ifs <;> simp

theorem utf8Decode_enc_append (r : Nat) (bs : Bytes) (h : validScalar r) :
    utf8Decode (utf8EncodeRune r ++ bs) = r :: utf8Decode bs := by
  rcases he : utf8EncodeRune r with _ | ⟨b0, e⟩
  · exact absurd he (utf8EncodeRune_ne_nil r)
  · have hone := utf8DecodeOne_enc r bs h
    rw [he] at hone
    simp only [List.cons_append] at hone ⊢
    rw [utf8Decode_cons, hone]
    simp only [List.length_cons, Nat.add_sub_cancel]
    rw [List.drop_left]

theorem utf8DecodeOne_fst_valid (bs : Bytes) : validScalar (utf8DecodeOne bs).1 := by
  match bs with
  | [] =>
    simp only [utf8DecodeOne, validScalar]
    omega
  | b0 :: rest =>
    simp only [utf8DecodeOne, utf8AcceptLo, utf8AcceptHi, validScalar]
    split_ifs <;> simp <;> omega

theorem utf8Decode_valid_aux : ∀ (n : Nat) (bs : Bytes), bs.length ≤ n →
    ∀ r ∈ utf8Decode bs, validScalar r := by
  intro n
  induction n with
  | zero =>
    intro bs h r hr
    have hb : bs = [] := List.eq_nil_of_length_eq_zero (Nat.le_zero.mp h)
    rw [hb, utf8Decode_nil] at hr
    simp at hr
  | succ n ih =>
    intro bs h r hr
    match bs with
    | [] => rw [utf8Decode_nil] at hr; simp at hr
    | b :: rest =>
      rw [utf8Decode_cons] at hr
      rcases List.mem_cons.mp hr with h1 | h1
      · rw [h1]; exact utf8DecodeOne_fst_valid _
      · refine ih _ ?_ r h1
        have := List.length_drop ((utf8DecodeOne (b :: rest)).2 - 1) rest
        simp only [List.length_cons] at h
        omega

theorem utf8Decode_valid (bs : Bytes) : ∀ r ∈ utf8Decode bs, validScalar r :=
  utf8Decode_valid_aux bs.length bs le_rfl

theorem utf8Decode_ascii (bs : Bytes) (h : ∀ b ∈ bs, b < 0x80) :
    utf8Decode bs = bs := by
  induction bs with
  | nil => exact utf8Decode_nil
  | cons b rest ih =>
    have hb : b < 0x80 := h b (by simp)
    have hone : utf8DecodeOne (b :: rest) = (b, 1) := by
      simp only [utf8DecodeOne, if_pos hb]
    rw [utf8Decode_cons, hone]
    simp only [List.drop_zero, Nat.sub_self]
    rw [ih (fun x hx => h x (by simp [hx]))]

theorem utf8EncodeRunes_ascii (rs : List Nat) (h : ∀ r ∈ rs, r < 0x80) :
    utf8EncodeRunes rs = rs := by
  induction rs with
  | nil => rfl
  | cons r rest ih =>
    have hr : r < 0x80 := h r (by simp)
    have he : utf8EncodeRune r = [r] := by rw [utf8EncodeRune, if_pos hr]
    simp only [utf8EncodeRunes, List.map_cons, List.flatten_cons, he,
      List.singleton_append]
    rw [show (List.map utf8EncodeRune rest).flatten = utf8EncodeRunes rest from rfl]
    rw [ih (fun x hx => h x (by simp [hx]))]

theorem utf8Decode_cont_run (bs : Bytes) (h : ∀ b ∈ bs, 0x80 ≤ b ∧ b < 0xC2) :
    utf8Decode bs = List.replicate bs.length 0xFFFD := by
  induction bs with
  | nil => simp [utf8Decode_nil]
  | cons b rest ih =>
    have hb := h b (by simp)
    have hone : utf8DecodeOne (b :: rest) = (0xFFFD, 1) := by
      simp only [utf8DecodeOne]
      rw [if_neg (by omega), if_pos (by omega)]
    rw [utf8Decode_cons, hone]
    simp only [List.drop_zero, Nat.sub_self, List.length_cons, List.replicate_succ]
    rw [ih (fun x hx => h x (by simp [hx]))]

set_option maxHeartbeats 1600000 in
/-- A strict byte prefix of one encoded code point decodes entirely to
replacement characters. -/
theorem utf8Decode_take_enc (r : Nat) (h : validScalar r) (n : Nat)
    (hn : n < (utf8EncodeRune r).length) :
    utf8Decode ((utf8EncodeRune r).take n) = List.replicate n 0xFFFD := by
  by_cases h1 : r < 0x80
  · have henc : utf8EncodeRune r = [r] := by rw [utf8EncodeRune, if_pos h1]
    rw [henc] at hn ⊢
    simp only [List.length_cons, List.length_nil] at hn
    have hz : n = 0 := by omega
    subst hz
    simp [utf8Decode_nil]
  · by_cases h2 : r < 0x800
    · have henc : utf8EncodeRune r = [0xC0 + r / 64, 0x80 + r % 64] := by
        rw [utf8EncodeRune, if_neg h1, if_pos h2]
      rw [henc] at hn ⊢
      simp only [List.length_cons, List.length_nil] at hn
      have hz : n = 0 ∨ n = 1 := by omega
      rcases hz with rfl | rfl
      · simp [utf8Decode_nil]
      · have hone : utf8DecodeOne [0xC0 + r / 64] = (0xFFFD, 1) := by
          simp only [utf8DecodeOne, utf8AcceptLo, utf8AcceptHi, byteAt, List.getD_nil]
          split_ifs <;> first | rfl | omega
        simp only [List.take_succ_cons, List.take_zero]
        rw [utf8Decode_cons, hone]
        simp [utf8Decode_nil]
    · by_cases h3 : r < 0x10000
      · have hs : ¬ (0xD800 ≤ r ∧ r ≤ 0xDFFF) := by
          rcases h with h | h <;> omega
        have henc : utf8EncodeRune r =
            [0xE0 + r / 4096, 0x80 + (r / 64) % 64, 0x80 + r % 64] := by
          rw [utf8EncodeRune, if_neg h1, if_neg h2, if_neg hs, if_pos h3]
        rw [henc] at hn ⊢
        simp only [List.length_cons, List.length_nil] at hn
        have hz : n = 0 ∨ n = 1 ∨ n = 2 := by omega
        rcases hz with rfl | rfl | rfl
        · simp [utf8Decode_nil]
        · have hone : utf8DecodeOne [0xE0 + r / 4096] = (0xFFFD, 1) := by
            simp only [utf8DecodeOne, utf8AcceptLo, utf8AcceptHi, byteAt, List.getD_nil]
            split_ifs <;> first | rfl | omega
          simp only [List.take_succ_cons, List.take_zero]
          rw [utf8Decode_cons, hone]
          simp [utf8Decode_nil]
        · have hone : utf8DecodeOne [0xE0 + r / 4096, 0x80 + (r / 64) % 64] =
              (0xFFFD, 1) := by
            simp only [utf8DecodeOne, utf8AcceptLo, utf8AcceptHi, byteAt,
              List.getD_cons_zero, List.getD_cons_succ, List.getD_nil]
            split_ifs <;> first | rfl | omega
          simp only [List.take_succ_cons, List.take_zero]
          rw [utf8Decode_cons, hone]
          simp only [Nat.sub_self, List.drop_zero]
          rw [utf8Decode_cont_run [0x80 + (r / 64) % 64] (by intro x hx; simp at hx; omega)]
          simp [List.replicate_succ]
      · have h4 : r ≤ 0x10FFFF := by rcases h with h | h <;> omega
        have hs : ¬ (0xD800 ≤ r ∧ r ≤ 0xDFFF) := by omega
        have henc : utf8EncodeRune r =
            [0xF0 + r / 0x40000, 0x80 + (r / 4096) % 64,
              0x80 + (r / 64) % 64, 0x80 + r % 64] := by
          rw [utf8EncodeRune, if_neg h1, if_neg h2, if_neg hs, if_neg h3, if_pos h4]
        rw [henc] at hn ⊢
        simp only [List.length_cons, List.length_nil] at hn
        have hz : n = 0 ∨ n = 1 ∨ n = 2 ∨ n = 3 := by omega
        rcases hz with rfl | rfl | rfl | rfl
        · simp [utf8Decode_nil]
        · have hone : utf8DecodeOne [0xF0 + r / 0x40000] = (0xFFFD, 1) := by
            simp only [utf8DecodeOne, utf8AcceptLo, utf8AcceptHi, byteAt, List.getD_nil]
            split_ifs <;> first | rfl | omega
          simp only [List.take_succ_cons, List.take_zero]
          rw [utf8Decode_cons, hone]
          simp [utf8Decode_nil]
        · have hone : utf8DecodeOne [0xF0 + r / 0x40000, 0x80 + (r / 4096) % 64] =
              (0xFFFD, 1) := by
            simp only [utf8DecodeOne, utf8AcceptLo, utf8AcceptHi, byteAt,
              List.getD_cons_zero, List.getD_cons_succ, List.getD_nil]
            split_ifs <;> first | rfl | omega
          simp only [List.take_succ_cons, List.take_zero]
          rw [utf8Decode_cons, hone]
          simp only [Nat.sub_self, List.drop_zero]
          rw [utf8Decode_cont_run [0x80 + (r / 4096) % 64]
            (by intro x hx; simp at hx; omega)]
          simp [List.replicate_succ]
        · have hone : utf8DecodeOne [0xF0 + r / 0x40000, 0x80 + (r / 4096) % 64,
              0x80 + (r / 64) % 64] = (0xFFFD, 1) := by
            simp only [utf8DecodeOne, utf8AcceptLo, utf8AcceptHi, byteAt,
              List.getD_cons_zero, List.getD_cons_succ, List.getD_nil]
            split_ifs <;> first | rfl | omega
          simp only [List.take_succ_cons, List.take_zero]
          rw [utf8Decode_cons, hone]
          simp only [Nat.sub_self, List.drop_zero]
          rw [utf8Decode_cont_run [0x80 + (r / 4096) % 64, 0x80 + (r / 64) % 64]
            (by intro x hx; simp at hx; rcases hx with rfl | rfl <;> omega)]
          simp [List.replicate_succ]

/-- Decoding any byte-length-bounded prefix of an encoded rune sequence
yields only runes of the sequence and replacement characters. -/
theorem utf8Decode_take_encodeRunes (rs : List Nat)
    (hv : ∀ r ∈ rs, validScalar r) (N : Nat) :
    ∀ x ∈ utf8Decode ((utf8EncodeRunes rs).take N), x ∈ rs ∨ x = 0xFFFD := by
  induction rs generalizing N with
  | nil =>
    intro x hx
    simp only [utf8EncodeRunes, List.map_nil, List.flatten_nil, List.take_nil,
      utf8Decode_nil] at hx
    simp at hx
  | cons r rest ih =>
    intro x hx
    have hr : validScalar r := hv r (by simp)
    have hcons : utf8EncodeRunes (r :: rest) =
        utf8EncodeRune r ++ utf8EncodeRunes rest := by
      simp [utf8EncodeRunes]
    rw [hcons, List.take_append_eq_append_take] at hx
    by_cases hN : (utf8EncodeRune r).length ≤ N
    · rw [List.take_of_length_le hN, utf8Decode_enc_append r _ hr] at hx
      rcases List.mem_cons.mp hx with rfl | hx
      · left; simp
      · rcases ih (fun a ha => hv a (by simp [ha])) _ x hx with h | h
        · left; simp [h]
        · right; exact h
    · have hz : N - (utf8EncodeRune r).length = 0 := by omega
      rw [hz, List.take_zero, List.append_nil] at hx
      rw [utf8Decode_take_enc r hr N (by omega)] at hx
      right
      exact List.eq_of_mem_replicate hx

/-- The two branches of the truncation step collapse to a byte-level take. -/
theorem sanitizeAttributeValue_eq_take (isPrint : Nat → Bool) (s : Bytes)
    (N : Nat) :
    sanitizeAttributeValue isPrint s N =
      (utf8EncodeRunes ((utf8Decode s).filter isPrint)).take N := by
  rw [sanitizeAttributeValue]
  by_cases h : N < (utf8EncodeRunes ((utf8Decode s).filter isPrint)).length
  · rw [if_pos h]
  · rw [if_neg h, List.take_of_length_le (by omega)]

/-- C8 (amended): sanitize(s, N) has byte length at most N; every code point
decoded from the result is accepted by the printability classifier or is
the replacement character U+FFFD produced by a byte-truncated code point;
and sanitize is idempotent on ASCII inputs. Truncation counts bytes, so it
can split a multi-byte code point, which breaks idempotence in general (see
the counterexample). -/
theorem sanitize_length_printable_ascii_idempotent (isPrint : Nat → Bool)
    (s : Bytes) (N : Nat) :
    (sanitizeAttributeValue isPrint s N).length ≤ N ∧
    (∀ x ∈ utf8Decode (sanitizeAttributeValue isPrint s N),
      isPrint x = true ∨ x = 0xFFFD) ∧
    ((∀ b ∈ s, b < 0x80) →
      sanitizeAttributeValue isPrint (sanitizeAttributeValue isPrint s N) N =
        sanitizeAttributeValue isPrint s N) := by
  refine ⟨?_, ?_, ?_⟩
  · rw [sanitizeAttributeValue_eq_take]
    simp [List.length_take_le]
  · intro x hx
    rw [sanitizeAttributeValue_eq_take] at hx
    have hv : ∀ r ∈ (utf8Decode s).filter isPrint, validScalar r := by
      intro r hrm
      exact utf8Decode_valid s r (List.mem_of_mem_filter hrm)
    rcases utf8Decode_take_encodeRunes _ hv N x hx with h | h
    · left; exact List.of_mem_filter h
    · right; exact h
  · intro hascii
    simp only [sanitizeAttributeValue_eq_take]
    rw [utf8Decode_ascii s hascii]
    have hfa : ∀ b ∈ s.filter isPrint, b < 0x80 := by
      intro b hb
      exact hascii b (List.mem_of_mem_filter hb)
    rw [utf8EncodeRunes_ascii _ hfa]
    set t := (s.filter isPrint).take N with ht
    have hta : ∀ b ∈ t, b < 0x80 := by
      intro b hb
      exact hfa b (List.mem_of_mem_take hb)
    rw [utf8Decode_ascii t hta]
    have hfp : t.filter isPrint = t := by
      apply List.filter_eq_self.mpr
      intro b hb
      exact List.of_mem_filter (List.mem_of_mem_take hb)
    rw [hfp, utf8EncodeRunes_ascii t hta]
    apply List.take_of_length_le
    rw [ht]
    simp [List.length_take_le]

/-- Witness for C8 (amended) on the ASCII bytes of the string hi, N = 255. -/
theorem sanitize_length_printable_ascii_idempotent_witness :
    (sanitizeAttributeValue unicodeIsPrint [104, 105] 255).length ≤ 255 ∧
    (∀ x ∈ utf8Decode (sanitizeAttributeValue unicodeIsPrint [104, 105] 255),
      unicodeIsPrint x = true ∨ x = 0xFFFD) ∧
    sanitizeAttributeValue unicodeIsPrint
        (sanitizeAttributeValue unicodeIsPrint [104, 105] 255) 255 =
      sanitizeAttributeValue unicodeIsPrint [104, 105] 255 := by
  have h := sanitize_length_printable_ascii_idempotent unicodeIsPrint [104, 105] 255
  exact ⟨h.1, h.2.1, h.2.2 (by decide)⟩

/-- C8 counterexample: sanitizing the euro-sign bytes E2 82 AC with bound 1
keeps the printable code point U+20AC, re-encodes it, and byte-truncates to
the lone byte E2; sanitizing that output again turns the byte into the
replacement character and truncates its encoding to EF, so sanitize is not
idempotent as the claim states. -/
theorem sanitize_not_idempotent_cx :
    sanitizeAttributeValue unicodeIsPrint [0xE2, 0x82, 0xAC] 1 = [0xE2] ∧
    sanitizeAttributeValue unicodeIsPrint
        (sanitizeAttributeValue unicodeIsPrint [0xE2, 0x82, 0xAC] 1) 1 = [0xEF] ∧
    sanitizeAttributeValue unicodeIsPrint
        (sanitizeAttributeValue unicodeIsPrint [0xE2, 0x82, 0xAC] 1) 1 ≠
      sanitizeAttributeValue unicodeIsPrint [0xE2, 0x82, 0xAC] 1 := by
  refine ⟨by decide, by decide, by decide⟩

/-! ## VPC flow-log constants, record, and errors -/

/-- Leading-match test on character lists (strings.HasPrefix). -/
def strHasLead : Str → Str → Bool
  | [], _ => true
  | _ :: _, [] => false
  | a :: as, b :: bs => a = b && strHasLead as bs

/-- strings.TrimPrefix: drop the leading pattern when present. -/
def trimLead (p s : Str) : Str := if strHasLead p s then s.drop p.length else s

/-- strings.TrimSuffix: drop the trailing pattern when present. -/
def trimTrail (p s : Str) : Str :=
  if strHasLead p.reverse s.reverse then (s.reverse.drop p.length).reverse else s

/-- fmt %d rendering of an int64. -/
def intToStr (i : Int) : Str :=
  if i < 0 then '-' :: Nat.toDigits 10 i.natAbs else Nat.toDigits 10 i.toNat

/-- Snake-case attribute keys from constants.go. -/
def VersionKey : Str := "version".data

def AccountIDKey : Str := "account_id".data

def InterfaceIDKey : Str := "interface_id".data

def SrcAddrKey : Str := "src_addr".data

def DstAddrKey : Str := "dst_addr".data

def SrcPortKey : Str := "src_port".data

def DstPortKey : Str := "dst_port".data

def ProtocolKey : Str := "protocol".data

def ProtocolNameKey : Str := "protocolName".data

def PacketsKey : Str := "packets".data

def BytesKey : Str := "bytes".data

def StartKey : Str := "start".data

def EndKey : Str := "end".data

def ActionKey : Str := "action".data

def LogStatusKey : Str := "log_status".data

/-- Modelled from the spec: the constants file revision matching the cached
handler is absent from src; the minimum supported flow-log version is 2
(spec 4.3, and the parsers compare parseInt of this constant). -/
def VpcFlowLogsDefaultVersion : Str := "2".data

/-- Modelled from the spec: the default format has exactly 14 fields. -/
def VpcFlowLogsDefaultVersionFieldsCount : Nat := 14

/-- Modelled from the spec: the AWS default (version 2) format string, as in
the spec glossary and the comment in handler_parser.go. -/
def VpcFlowLogsDefaultFormatString : Str :=
  "${version} ${account-id} ${interface-id} ${srcaddr} ${dstaddr} ${srcport} ${dstport} ${protocol} ${packets} ${bytes} ${start} ${end} ${action} ${log-status}".data

/-- Modelled from the spec: the provider-side (kebab-case) names of the 14
default-format fields, in default-format order; the validator walks this
list. -/
def V2DefaultFieldNames : List Str :=
  ["version".data, "account-id".data, "interface-id".data, "srcaddr".data,
    "dstaddr".data, "srcport".data, "dstport".data, "protocol".data,
    "packets".data, "bytes".data, "start".data, "end".data, "action".data,
    "log-status".data]

/-- Modelled from the spec: membership map backing isDefaultFormatField. -/
def defaultFieldsMap (name : Str) : Bool := V2DefaultFieldNames.contains name

/-- ConvertKeyToAWSFieldName from utils.go: special cases, then
underscore-to-dash conversion. -/
def ConvertKeyToAWSFieldName (key : Str) : Str :=
  if key = AccountIDKey then "account-id".data
  else if key = InterfaceIDKey then "interface-id".data
  else if key = SrcAddrKey then "srcaddr".data
  else if key = DstAddrKey then "dstaddr".data
  else if key = SrcPortKey then "srcport".data
  else if key = DstPortKey then "dstport".data
  else if key = LogStatusKey then "log-status".data
  else if key = ProtocolNameKey then "protocolName".data
  else key.map (fun c => if c = '_' then '-' else c)

/-- isValidAccountID from utils.go: exactly 12 digits. -/
def isValidAccountID (accountID : Str) : Bool :=
  accountID.length = 12 && accountID.all isDigitChar

/-- FlowLogRecord from types.go (all optional fields through version 10);
integer fields are int64, everything else is a string. -/
structure FlowLogRecord where
  Version : Str := []
  AccountID : Str := []
  InterfaceID : Str := []
  SrcAddr : Str := []
  DstAddr : Str := []
  SrcPort : Str := []
  DstPort : Str := []
  Protocol : Str := []
  Packets : Int := 0
  Bytes : Int := 0
  Start : Int := 0
  End : Int := 0
  Action : Str := []
  LogStatus : Str := []
  VpcID : Str := []
  SubnetID : Str := []
  InstanceID : Str := []
  TcpFlags : Str := []
  TypeF : Str := []
  PktSrcAddr : Str := []
  PktDstAddr : Str := []
  Region : Str := []
  AzID : Str := []
  SublocationType : Str := []
  SublocationID : Str := []
  PktSrcAWSService : Str := []
  PktDstAWSService : Str := []
  FlowDirection : Str := []
  TrafficPath : Str := []
  ECSClusterName : Str := []
  ECSClusterArn : Str := []
  ECSContainerInstanceID : Str := []
  ECSContainerInstanceArn : Str := []
  ECSServiceName : Str := []
  ECSTaskDefinitionArn : Str := []
  ECSTaskID : Str := []
  ECSTaskArn : Str := []
  ECSContainerID : Str := []
  ECSSecondContainerID : Str := []
  RejectReason : Str := []
  ResourceID : Str := []
  EncryptionStatus : Str := []
  deriving Repr, DecidableEq

/-- Error union of the vpc_flow_logs package: ParseError carries message and
int expected/actual counts, ValidationError carries field, expected, actual
and message strings. -/
inductive FlowLogError where
  | parseErr (message : Str) (expected actual : Int)
  | validationErr (field expected actual message : Str)
  deriving Repr, DecidableEq

/-- Field selector of a ValidationError (empty for a ParseError). -/
def FlowLogError.field : FlowLogError → Str
  | .parseErr _ _ _ => []
  | .validationErr f _ _ _ => f

/-- Message selector of either error kind. -/
def FlowLogError.message : FlowLogError → Str
  | .parseErr m _ _ => m
  | .validationErr _ _ _ m => m

/-! ## Field presence and the two parsers -/

/-- FieldPresenceMap: none models the nil map (default format, all default
fields present); some holds the field names mentioned in the format. -/
def FieldPresenceMap := Option (List Str)

/-- Strip one field token of its wrapping (the TrimPrefix and TrimSuffix
pair in NewFieldPresenceMap and parseToStruct). -/
def cleanFieldToken (raw : Str) : Str := trimTrail "\x7d".data (trimLead "$\x7b".data raw)

/-- NewFieldPresenceMap from field_presence.go. -/
def NewFieldPresenceMap (format : Str) : FieldPresenceMap :=
  if format = [] ∨ format = VpcFlowLogsDefaultFormatString then none
  else some ((goFields format).map cleanFieldToken)

/-- FieldPresenceMap.HasField: for the nil map every default-format field is
present; otherwise membership. -/
def FieldPresenceMap.HasField (f : FieldPresenceMap) (awsFieldName : Str) : Bool :=
  match f with
  | none => defaultFieldsMap awsFieldName
  | some m => m.contains awsFieldName

/-- One reflective assignment of parseToStruct: set the record field whose
json tag matches the cleaned format token; string fields take the raw
token, int64 fields take its parse with a 0 fallback; unknown names are
skipped. -/
def setFlowLogField (rec : FlowLogRecord) (tag value : Str) : FlowLogRecord :=
  if tag = "version".data then { rec with Version := value }
  else if tag = "account-id".data then { rec with AccountID := value }
  else if tag = "interface-id".data then { rec with InterfaceID := value }
  else if tag = "srcaddr".data then { rec with SrcAddr := value }
  else if tag = "dstaddr".data then { rec with DstAddr := value }
  else if tag = "srcport".data then { rec with SrcPort := value }
  else if tag = "dstport".data then { rec with DstPort := value }
  else if tag = "protocol".data then { rec with Protocol := value }
  else if tag = "packets".data then { rec with Packets := parseInt64 value }
  else if tag = "bytes".data then { rec with Bytes := parseInt64 value }
  else if tag = "start".data then { rec with Start := parseInt64 value }
  else if tag = "end".data then { rec with End := parseInt64 value }
  else if tag = "action".data then { rec with Action := value }
  else if tag = "log-status".data then { rec with LogStatus := value }
  else if tag = "vpc-id".data then { rec with VpcID := value }
  else if tag = "subnet-id".data then { rec with SubnetID := value }
  else if tag = "instance-id".data then { rec with InstanceID := value }
  else if tag = "tcp-flags".data then { rec with TcpFlags := value }
  else if tag = "type".data then { rec with TypeF := value }
  else if tag = "pkt-srcaddr".data then { rec with PktSrcAddr := value }
  else if tag = "pkt-dstaddr".data then { rec with PktDstAddr := value }
  else if tag = "region".data then { rec with Region := value }
  else if tag = "az-id".data then { rec with AzID := value }
  else if tag = "sublocation-type".data then { rec with SublocationType := value }
  else if tag = "sublocation-id".data then { rec with SublocationID := value }
  else if tag = "pkt-src-aws-service".data then { rec with PktSrcAWSService := value }
  else if tag = "pkt-dst-aws-service".data then { rec with PktDstAWSService := value }
  else if tag = "flow-direction".data then { rec with FlowDirection := value }
  else if tag = "traffic-path".data then { rec with TrafficPath := value }
  else if tag = "ecs-cluster-name".data then { rec with ECSClusterName := value }
  else if tag = "ecs-cluster-arn".data then { rec with ECSClusterArn := value }
  else if tag = "ecs-container-instance-id".data then
    { rec with ECSContainerInstanceID := value }
  else if tag = "ecs-container-instance-arn".data then
    { rec with ECSContainerInstanceArn := value }
  else if tag = "ecs-service-name".data then { rec with ECSServiceName := value }
  else if tag = "ecs-task-definition-arn".data then
    { rec with ECSTaskDefinitionArn := value }
  else if tag = "ecs-task-id".data then { rec with ECSTaskID := value }
  else if tag = "ecs-task-arn".data then { rec with ECSTaskArn := value }
  else if tag = "ecs-container-id".data then { rec with ECSContainerID := value }
  else if tag = "ecs-second-container-id".data then
    { rec with ECSSecondContainerID := value }
  else if tag = "reject-reason".data then { rec with RejectReason := value }
  else if tag = "resource-id".data then { rec with ResourceID := value }
  else if tag = "encryption-status".data then { rec with EncryptionStatus := value }
  else rec

/-- Whether the field-presence map is the nil map (default format). -/
def FieldPresenceMap.isNil (f : FieldPresenceMap) : Bool :=
  match f with | none => true | some _ => false

/-- The presence sweep of validateFlowLogRecord: for a custom format, the
first V2 default field name missing from the format. -/
def vfMissingFieldCheck (fieldPresence : FieldPresenceMap) : Option FlowLogError :=
  if fieldPresence.isNil then none
  else
    (V2DefaultFieldNames.find? (fun f => ¬ fieldPresence.HasField f)).map
      (fun f => .validationErr f [] []
        ("Custom format must include all V2 default fields. Missing required field: '".data ++
          f ++ "'".data))

/-- validateStringField closure of validateFlowLogRecord. -/
def vfStringField (fieldPresence : FieldPresenceMap)
    (awsFieldName fieldValue : Str) : Option FlowLogError :=
  if (fieldPresence.isNil || fieldPresence.HasField awsFieldName) &&
      fieldValue.isEmpty then
    some (.validationErr awsFieldName [] fieldValue
      ("Required field '".data ++ awsFieldName ++ "' is empty or missing".data))
  else none

/-- validateNumericField closure of validateFlowLogRecord. -/
def vfNumericField (fieldPresence : FieldPresenceMap) (awsFieldName key : Str)
    (value : Int) (fieldType : Str) : Option FlowLogError :=
  if (fieldPresence.isNil || fieldPresence.HasField awsFieldName) && value < 0 then
    some (.validationErr (ConvertKeyToAWSFieldName key) [] (intToStr value)
      (fieldType ++ " cannot be negative".data))
  else none

/-- Start-at-most-end check of validateFlowLogRecord. -/
def vfStartEndCheck (record : FlowLogRecord)
    (fieldPresence : FieldPresenceMap) : Option FlowLogError :=
  if (fieldPresence.isNil ||
      (fieldPresence.HasField "start".data && fieldPresence.HasField "end".data)) &&
      record.Start > record.End then
    some (.validationErr (ConvertKeyToAWSFieldName StartKey) []
      ("start: ".data ++ intToStr record.Start ++ ", end: ".data ++
        intToStr record.End)
      "Start time cannot be greater than end time".data)
  else none

/-- Account-id format checks of validateFlowLogRecord. -/
def vfAccountCheck (record : FlowLogRecord)
    (fieldPresence : FieldPresenceMap) : Option FlowLogError :=
  if fieldPresence.isNil || fieldPresence.HasField "account-id".data then
    if record.AccountID.length ≠ 12 then
      some (.validationErr (ConvertKeyToAWSFieldName AccountIDKey) []
        record.AccountID
        "Invalid AWS account ID format (expected 12 digits)".data)
    else if ¬ record.AccountID.all isDigitChar then
      some (.validationErr (ConvertKeyToAWSFieldName AccountIDKey) []
        record.AccountID
        "Invalid AWS account ID format (must contain only digits)".data)
    else none
  else none

/-- Action value check of validateFlowLogRecord. -/
def vfActionCheck (record : FlowLogRecord)
    (fieldPresence : FieldPresenceMap) : Option FlowLogError :=
  if (fieldPresence.isNil || fieldPresence.HasField "action".data) &&
      ¬ (record.Action = "ACCEPT".data || record.Action = "REJECT".data) then
    some (.validationErr (ConvertKeyToAWSFieldName ActionKey) [] record.Action
      "Invalid action value (must be ACCEPT or REJECT)".data)
  else none

/-- Log-status value check of validateFlowLogRecord. -/
def vfStatusCheck (record : FlowLogRecord)
    (fieldPresence : FieldPresenceMap) : Option FlowLogError :=
  if (fieldPresence.isNil || fieldPresence.HasField "log-status".data) &&
      ¬ (record.LogStatus = "OK".data || record.LogStatus = "NODATA".data ||
        record.LogStatus = "SKIPDATA".data) then
    some (.validationErr (ConvertKeyToAWSFieldName LogStatusKey) []
      record.LogStatus
      "Invalid log status (must be OK, NODATA, or SKIPDATA)".data)
  else none

/-- validateFlowLogRecord from utils.go: the custom-format presence sweep
over the V2 default fields, then per-field validation gated on presence;
the first failing check is returned (none when the record is valid). -/
def validateFlowLogRecord (record : FlowLogRecord)
    (fieldPresence : FieldPresenceMap) : Option FlowLogError :=
  List.findSome? id
    [vfMissingFieldCheck fieldPresence,
      vfStringField fieldPresence (ConvertKeyToAWSFieldName VersionKey) record.Version,
      vfStringField fieldPresence (ConvertKeyToAWSFieldName AccountIDKey) record.AccountID,
      vfStringField fieldPresence (ConvertKeyToAWSFieldName InterfaceIDKey) record.InterfaceID,
      vfStringField fieldPresence (ConvertKeyToAWSFieldName SrcAddrKey) record.SrcAddr,
      vfStringField fieldPresence (ConvertKeyToAWSFieldName DstAddrKey) record.DstAddr,
      vfStringField fieldPresence (ConvertKeyToAWSFieldName SrcPortKey) record.SrcPort,
      vfStringField fieldPresence (ConvertKeyToAWSFieldName DstPortKey) record.DstPort,
      vfStringField fieldPresence (ConvertKeyToAWSFieldName ProtocolKey) record.Protocol,
      vfStringField fieldPresence (ConvertKeyToAWSFieldName ActionKey) record.Action,
      vfStringField fieldPresence (ConvertKeyToAWSFieldName LogStatusKey) record.LogStatus,
      vfNumericField fieldPresence "packets".data PacketsKey record.Packets "Packets count".data,
      vfNumericField fieldPresence "bytes".data BytesKey record.Bytes "Bytes count".data,
      vfNumericField fieldPresence "start".data StartKey record.Start "Start time".data,
      vfNumericField fieldPresence "end".data EndKey record.End "End time".data,
      vfStartEndCheck record fieldPresence,
      vfAccountCheck record fieldPresence,
      vfActionCheck record fieldPresence,
      vfStatusCheck record fieldPresence]

/-- The record assembled by the assignment loop of parseToStruct. -/
def customParsedRecord (format line : Str) : FlowLogRecord :=
  (List.zip (goFields format) (goFields line)).foldl
    (fun rec p => setFlowLogField rec (cleanFieldToken p.1) p.2) {}

/-- parseToStruct from flow_logs_parser.go: tokenize the format and the
line; a token-count mismatch is an error (the fmt.Errorf text); otherwise
assign positionally by json tag. -/
def parseToStruct (format line : Str) : Except Str FlowLogRecord :=
  if (goFields format).length ≠ (goFields line).length then
    .error ("field count mismatch: format has ".data ++
      intToStr (goFields format).length ++ " fields, line has ".data ++
      intToStr (goFields line).length)
  else
    .ok (customParsedRecord format line)

/-- The version-too-old ValidationError shared by both parsers. -/
def versionTooOldError (version : Str) : FlowLogError :=
  .validationErr (ConvertKeyToAWSFieldName VersionKey) [] version
    ("VPC Flow Log version too old (minimum: ".data ++
      VpcFlowLogsDefaultVersion ++ ", got ".data ++ version ++ ")".data)

/-- The positional field assignment of parseFlowLogRecordDefault. -/
def defaultParsedRecord (fields : List Str) : FlowLogRecord :=
  { Version := fields.getD 0 []
    AccountID := fields.getD 1 []
    InterfaceID := fields.getD 2 []
    SrcAddr := fields.getD 3 []
    DstAddr := fields.getD 4 []
    SrcPort := fields.getD 5 []
    DstPort := fields.getD 6 []
    Protocol := fields.getD 7 []
    Packets := parseInt64 (fields.getD 8 [])
    Bytes := parseInt64 (fields.getD 9 [])
    Start := parseInt64 (fields.getD 10 [])
    End := parseInt64 (fields.getD 11 [])
    Action := fields.getD 12 []
    LogStatus := fields.getD 13 [] }

/-- parseFlowLogRecordDefault from handler_parser.go: whitespace split,
exact 14-field check, positional assignment, minimum-version check, then
full validation with the nil presence map. -/
def parseFlowLogRecordDefault (message : Str) : Except FlowLogError FlowLogRecord :=
  let fields := goFields message
  if fields.length ≠ VpcFlowLogsDefaultVersionFieldsCount then
    .error (.parseErr "Invalid field count in VPC flow log".data
      (VpcFlowLogsDefaultVersionFieldsCount : Int) (fields.length : Int))
  else
    let logRecord := defaultParsedRecord fields
    if parseInt64 logRecord.Version < parseInt64 VpcFlowLogsDefaultVersion then
      .error (versionTooOldError logRecord.Version)
    else
      match validateFlowLogRecord logRecord none with
      | some e => .error e
      | none => .ok logRecord

/-- parseFlowLogRecordCustom from handler_parser.go: reflective parse, then
minimum-version check, then validation against the field-presence map of
the format. -/
def parseFlowLogRecordCustom (message format : Str) : Except FlowLogError FlowLogRecord :=
  match parseToStruct format message with
  | .error e =>
    .error (.parseErr ("Failed to parse VPC flow log with custom format: ".data ++ e) 0 0)
  | .ok logRecord =>
    if parseInt64 logRecord.Version < parseInt64 VpcFlowLogsDefaultVersion then
      .error (versionTooOldError logRecord.Version)
    else
      match validateFlowLogRecord logRecord (NewFieldPresenceMap format) with
      | some e => .error e
      | none => .ok logRecord

/-- isDefaultFormat from the cached handler revision: empty or exactly the
AWS default format string. -/
def isDefaultFormat (format : Str) : Bool :=
  format.isEmpty || format = VpcFlowLogsDefaultFormatString

/-- Kind discriminator: is the error a ParseError. -/
def FlowLogError.isParseErr : FlowLogError → Bool
  | .parseErr .. => true
  | .validationErr .. => false

/-- The error of a failed parse, if any. -/
def exceptErr? (r : Except FlowLogError FlowLogRecord) : Option FlowLogError :=
  match r with
  | .error e => some e
  | .ok _ => none

theorem parseInt64_default_version : parseInt64 VpcFlowLogsDefaultVersion = 2 := by
  decide

/-- C5 (amended): for a custom format that omits a default field and a line
whose whitespace token count matches the format, parsing fails; when the
parsed version is at least 2, the error is the ValidationError naming the
first default field (in default-format order) missing from the format, with
the missing-required-field message. -/
theorem parse_custom_missing_default_field (format line D : Str)
    (hD : D ∈ V2DefaultFieldNames)
    (hmiss : (NewFieldPresenceMap format).HasField D = false)
    (hcount : (goFields format).length = (goFields line).length)
    (hver : 2 ≤ parseInt64 (customParsedRecord format line).Version) :
    ∃ f, V2DefaultFieldNames.find?
        (fun g => ¬ (NewFieldPresenceMap format).HasField g) = some f ∧
      (NewFieldPresenceMap format).HasField f = false ∧
      parseFlowLogRecordCustom line format =
        .error (.validationErr f [] []
          ("Custom format must include all V2 default fields. Missing required field: '".data ++
            f ++ "'".data)) := by
  have hnonnil : ¬ NewFieldPresenceMap format = none := by
    intro hnil
    rw [hnil] at hmiss
    simp only [FieldPresenceMap.HasField, defaultFieldsMap] at hmiss
    have h1 : V2DefaultFieldNames.contains D = true := List.elem_eq_true_of_mem hD
    rw [h1] at hmiss
    simp at hmiss
  have hfind : (V2DefaultFieldNames.find?
      (fun g => ¬ (NewFieldPresenceMap format).HasField g)).isSome := by
    rw [List.find?_isSome]
    exact ⟨D, hD, by simp [hmiss]⟩
  rcases Option.isSome_iff_exists.mp hfind with ⟨f, hf⟩
  have hpf := List.find?_some hf
  have hfFalse : (NewFieldPresenceMap format).HasField f = false := by
    simpa using hpf
  refine ⟨f, hf, hfFalse, ?_⟩
  have hok : parseToStruct format line = .ok (customParsedRecord format line) := by
    rw [parseToStruct, if_neg (by omega)]
  have hver2 : ¬ (parseInt64 (customParsedRecord format line).Version <
      parseInt64 VpcFlowLogsDefaultVersion) := by
    rw [parseInt64_default_version]
    omega
  have hisnil : (NewFieldPresenceMap format).isNil = false := by
    rcases h : NewFieldPresenceMap format with _ | m
    · exact absurd h hnonnil
    · rfl
  have hmissing : vfMissingFieldCheck (NewFieldPresenceMap format) =
      some (.validationErr f [] []
        ("Custom format must include all V2 default fields. Missing required field: '".data ++
          f ++ "'".data)) := by
    rw [vfMissingFieldCheck, hisnil]
    rw [if_neg (by simp)]
    rw [hf]
    rfl
  have hvalidate : validateFlowLogRecord (customParsedRecord format line)
      (NewFieldPresenceMap format) =
      some (.validationErr f [] []
        ("Custom format must include all V2 default fields. Missing required field: '".data ++
          f ++ "'".data)) := by
    rw [validateFlowLogRecord]
    simp [hmissing]
  simp only [parseFlowLogRecordCustom, hok]
  rw [if_neg hver2, hvalidate]

/-- Witness for C5 (amended) at the format of spec scenario S4 (missing
account-id) and a matching 13-field line. -/
theorem parse_custom_missing_default_field_witness :
    ∃ f, V2DefaultFieldNames.find?
        (fun g => ¬ (NewFieldPresenceMap ("${version} ${interface-id} ${srcaddr} ${dstaddr} ${srcport} ${dstport} ${protocol} ${packets} ${bytes} ${start} ${end} ${action} ${log-status}".data)).HasField g) = some f ∧
      (NewFieldPresenceMap ("${version} ${interface-id} ${srcaddr} ${dstaddr} ${srcport} ${dstport} ${protocol} ${packets} ${bytes} ${start} ${end} ${action} ${log-status}".data)).HasField f = false ∧
      parseFlowLogRecordCustom
          ("3 eni-abc123 10.0.1.100 192.168.1.50 443 49152 6 25 4000 1620000000 1620000060 ACCEPT OK".data)
          ("${version} ${interface-id} ${srcaddr} ${dstaddr} ${srcport} ${dstport} ${protocol} ${packets} ${bytes} ${start} ${end} ${action} ${log-status}".data) =
        .error (.validationErr f [] []
          ("Custom format must include all V2 default fields. Missing required field: '".data ++
            f ++ "'".data)) :=
  parse_custom_missing_default_field _ _ ("account-id".data)
    (by decide) (by decide) (by decide) (by decide)

/-- C5 counterexample: the claim quantifies over every input line, but a
line whose token count differs from the format yields a ParseError, not a
ValidationError naming the omitted default field account-id. -/
theorem parse_custom_missing_field_cx :
    ((exceptErr? (parseFlowLogRecordCustom ("foo bar".data)
        ("${version} ${interface-id} ${srcaddr} ${dstaddr} ${srcport} ${dstport} ${protocol} ${packets} ${bytes} ${start} ${end} ${action} ${log-status}".data))).map
      FlowLogError.isParseErr) = some true ∧
    ((exceptErr? (parseFlowLogRecordCustom ("foo bar".data)
        ("${version} ${interface-id} ${srcaddr} ${dstaddr} ${srcport} ${dstport} ${protocol} ${packets} ${bytes} ${start} ${end} ${action} ${log-status}".data))).map
      FlowLogError.field) ≠ some ("account-id".data) := by
  refine ⟨by decide, by decide⟩

/-! ## C10: GCP log forwarder — body re-shaping (recursiveMap)

From src/gcp/gcp-log-forwarder/src/main.go. JSON values are modelled by
JsonVal (numbers as rationals; an integer number is one with denominator 1).
Go values of type any are modelled by GoAny, and goJsonDecode models
json.Unmarshal of a JSON value into a Go any per encoding/json semantics:
every JSON number decodes to float64 (GoAny.gFloat); no decode ever
produces an int (GoAny.gInt). -/

inductive JsonVal where
  | obj : List (Str × JsonVal) → JsonVal
  | arr : List JsonVal → JsonVal
  | num : ℚ → JsonVal
  | str : Str → JsonVal
  | jbool : Bool → JsonVal
  | null : JsonVal

inductive GoAny where
  | gMap : List (Str × GoAny) → GoAny
  | gArr : List GoAny → GoAny
  | gInt : Int → GoAny
  | gFloat : ℚ → GoAny
  | gBool : Bool → GoAny
  | gStr : Str → GoAny
  | gNull : GoAny

mutual

/-- encoding/json Unmarshal into any: objects to map[string]any, arrays to
[]any, every number to float64, strings, booleans, null to nil. The field
and element helpers render the element-wise decoding of object fields and
array elements. -/
def goJsonDecode : JsonVal → GoAny
  | .obj kvs => .gMap (goJsonDecodeFields kvs)
  | .arr xs => .gArr (goJsonDecodeList xs)
  | .num q => .gFloat q
  | .str s => .gStr s
  | .jbool b => .gBool b
  | .null => .gNull

def goJsonDecodeFields : List (Str × JsonVal) → List (Str × GoAny)
  | [] => []
  | (k, v) :: rest => (k, goJsonDecode v) :: goJsonDecodeFields rest

def goJsonDecodeList : List JsonVal → List GoAny
  | [] => []
  | v :: rest => goJsonDecode v :: goJsonDecodeList rest

end

/-- The OTLP Value union produced by recursiveMap. -/
inductive OtlpValue where
  | kvlistValue : List (Str × OtlpValue) → OtlpValue
  | arrayValue : List OtlpValue → OtlpValue
  | intValue : Int → OtlpValue
  | doubleValue : ℚ → OtlpValue
  | boolValue : Bool → OtlpValue
  | stringValue : Str → OtlpValue

mutual

/-- recursiveMap from the GCP forwarder main.go: the final two cases are the
default branch (fmt.Sprintf of a Go string is the string itself, and of nil
is the text less-than nil greater-than); the field and element helpers
render the range loops that rebuild the kvList and arr slices. -/
def recursiveMap : GoAny → OtlpValue
  | .gMap kvs => .kvlistValue (recursiveMapFields kvs)
  | .gArr xs => .arrayValue (recursiveMapList xs)
  | .gInt n => .intValue n
  | .gFloat q => .doubleValue q
  | .gBool b => .boolValue b
  | .gStr s => .stringValue s
  | .gNull => .stringValue "<nil>".data

def recursiveMapFields : List (Str × GoAny) → List (Str × OtlpValue)
  | [] => []
  | (k, v) :: rest => (k, recursiveMap v) :: recursiveMapFields rest

def recursiveMapList : List GoAny → List OtlpValue
  | [] => []
  | v :: rest => recursiveMap v :: recursiveMapList rest

end

mutual

/-- Modelled from the spec: the body re-shaping as worded by the claim,
with integer numbers going to intValue and floating-point numbers to
doubleValue. -/
def specBodyReshape : JsonVal → OtlpValue
  | .obj kvs => .kvlistValue (specBodyReshapeFields kvs)
  | .arr xs => .arrayValue (specBodyReshapeList xs)
  | .num q => if q.den = 1 then .intValue q.num else .doubleValue q
  | .str s => .stringValue s
  | .jbool b => .boolValue b
  | .null => .stringValue "<nil>".data

def specBodyReshapeFields : List (Str × JsonVal) → List (Str × OtlpValue)
  | [] => []
  | (k, v) :: rest => (k, specBodyReshape v) :: specBodyReshapeFields rest

def specBodyReshapeList : List JsonVal → List OtlpValue
  | [] => []
  | v :: rest => specBodyReshape v :: specBodyReshapeList rest

end

mutual

/-- Modelled from the spec, amended: every JSON number — integer or not —
re-shapes to doubleValue, because encoding/json decodes all JSON numbers as
float64. -/
def bodyReshapeAllDouble : JsonVal → OtlpValue
  | .obj kvs => .kvlistValue (bodyReshapeAllDoubleFields kvs)
  | .arr xs => .arrayValue (bodyReshapeAllDoubleList xs)
  | .num q => .doubleValue q
  | .str s => .stringValue s
  | .jbool b => .boolValue b
  | .null => .stringValue "<nil>".data

def bodyReshapeAllDoubleFields : List (Str × JsonVal) → List (Str × OtlpValue)
  | [] => []
  | (k, v) :: rest => (k, bodyReshapeAllDouble v) :: bodyReshapeAllDoubleFields rest

def bodyReshapeAllDoubleList : List JsonVal → List OtlpValue
  | [] => []
  | v :: rest => bodyReshapeAllDouble v :: bodyReshapeAllDoubleList rest

end

/-- C10 counterexample: the integer JSON number 5 is re-shaped by the
pipeline (json.Unmarshal then recursiveMap) into doubleValue, not the
intValue the claim promises for integer numbers, because encoding/json
decodes every JSON number into float64 and the int case of recursiveMap is
unreachable. -/
theorem recursiveMap_int_goes_to_double_cx :
    recursiveMap (goJsonDecode (JsonVal.num 5)) = OtlpValue.doubleValue 5 ∧
    specBodyReshape (JsonVal.num 5) = OtlpValue.intValue 5 ∧
    recursiveMap (goJsonDecode (JsonVal.num 5)) ≠ specBodyReshape (JsonVal.num 5) := by
  have h1 : recursiveMap (goJsonDecode (JsonVal.num 5)) = OtlpValue.doubleValue 5 := rfl
  have h2 : specBodyReshape (JsonVal.num 5) = OtlpValue.intValue 5 := by
    simp [specBodyReshape]
  exact ⟨h1, h2, by rw [h1, h2]; exact fun h => OtlpValue.noConfusion h⟩

/-- C10 (amended): for every JSON value, the body re-shaping performed by
the pipeline — json.Unmarshal into Go any values followed by recursiveMap —
maps objects to kvlistValue, arrays to arrayValue, booleans to boolValue,
strings and null to stringValue via default stringification, and every
number, integer or floating-point, to doubleValue (encoding/json decodes
all JSON numbers as float64, so the intValue case is never produced). -/
theorem recursiveMap_reshapes_body (j : JsonVal) :
    recursiveMap (goJsonDecode j) = bodyReshapeAllDouble j := by
  refine goJsonDecode.induct
    (fun j => recursiveMap (goJsonDecode j) = bodyReshapeAllDouble j)
    (fun xs => recursiveMapList (goJsonDecodeList xs) = bodyReshapeAllDoubleList xs)
    (fun kvs => recursiveMapFields (goJsonDecodeFields kvs) = bodyReshapeAllDoubleFields kvs)
    ?_ ?_ ?_ ?_ ?_ ?_ ?_ ?_ ?_ ?_ j
  all_goals intros
  all_goals simp_all [goJsonDecode, recursiveMap, bodyReshapeAllDouble,
    goJsonDecodeFields, recursiveMapFields, bodyReshapeAllDoubleFields,
    goJsonDecodeList, recursiveMapList, bodyReshapeAllDoubleList]

/-! ## C9: invocation outcome aggregation

handleEvent (main.go) drains the channel of transformed batches, exporting
each one; an export outcome is modelled as Option Str (none on success,
some message on failure). After the loop the result is success iff the
collected error slice is empty, otherwise failure together with the last
collected error. ProcessAndExportVpcFlowLogs (config.go) additionally
counts successful exports and, when that count is zero, appends a synthetic
error naming the number of incoming log events. -/

/-- The error slice collected by the export loop, in export order. -/
def collectErrs (outcomes : List (Option Str)) : List Str :=
  outcomes.filterMap id

/-- Outcome aggregation of handleEvent: r starts at failure; after the
export loop, if the error slice is empty r becomes success (and the
returned error is nil), otherwise the returned error is the last element
of the error slice. -/
def handleEventOutcome (outcomes : List (Option Str)) : Str × Option Str :=
  let errs := collectErrs outcomes
  if errs.isEmpty then ("success".data, none)
  else ("failure".data, errs.getLast?)

/-- The synthetic failure message of ProcessAndExportVpcFlowLogs. -/
def vpcNoRecordsMsg (n : Nat) : Str :=
  "Failed to process any VPC flow log records from ".data ++ intToStr n ++
    " log events".data

/-- ProcessAndExportVpcFlowLogs from config.go, abstracted over the export
outcomes: successfulExports counts nil-error exports, errs collects the
failures, and when successfulExports is zero a synthetic error is appended
before returning. -/
def ProcessAndExportVpcFlowLogs (logEventsCount : Nat)
    (outcomes : List (Option Str)) : Nat × List Str :=
  let successfulExports := outcomes.countP (fun o => o.isNone)
  let errs := collectErrs outcomes
  if successfulExports = 0 then
    (successfulExports, errs ++ [vpcNoRecordsMsg logEventsCount])
  else (successfulExports, errs)

/-- C9 counterexample: the claim says an invocation that launches zero
exports succeeds, but ProcessAndExportVpcFlowLogs on zero outcomes returns
a non-empty error slice (the synthetic no-records error), i.e. failure. -/
theorem process_vpc_zero_exports_fails_cx :
    (ProcessAndExportVpcFlowLogs 0 []).2 = [vpcNoRecordsMsg 0] ∧
    (ProcessAndExportVpcFlowLogs 0 []).2 ≠ [] := by
  refine ⟨by decide, by decide⟩

/-- C9 (amended): handleEvent returns success iff every launched export
succeeded (zero launches included), and otherwise failure with the last
seen export error; ProcessAndExportVpcFlowLogs however returns an empty
error slice iff every launched export succeeded AND at least one export
was launched — with zero launches it fails with the synthetic no-records
error. -/
theorem export_outcome_aggregation (outcomes : List (Option Str)) (n : Nat) :
    ((handleEventOutcome outcomes).1 = "success".data ↔ ∀ o ∈ outcomes, o = none) ∧
    (∀ e, (collectErrs outcomes).getLast? = some e →
      handleEventOutcome outcomes = ("failure".data, some e)) ∧
    ((ProcessAndExportVpcFlowLogs n outcomes).2 = [] ↔
      (∀ o ∈ outcomes, o = none) ∧ outcomes ≠ []) := by
  have hnil : collectErrs outcomes = [] ↔ ∀ o ∈ outcomes, o = none := by
    rw [collectErrs, List.filterMap_eq_nil_iff]
    simp
  refine ⟨?_, ?_, ?_⟩
  · rw [handleEventOutcome, ← hnil]
    rcases h : collectErrs outcomes with _ | ⟨e, es⟩
    · simp
    · rw [if_neg (by simp)]
      refine iff_of_false ?_ (by simp)
      show ¬ "failure".data = "success".data
      decide
  · intro e he
    rw [handleEventOutcome]
    rcases h : collectErrs outcomes with _ | ⟨x, xs⟩
    · rw [h] at he
      simp at he
    · rw [h] at he
      rw [if_neg (by simp), he]
  · rw [ProcessAndExportVpcFlowLogs]
    rcases Nat.eq_zero_or_pos (outcomes.countP (fun o => o.isNone)) with hc | hc
    · rw [hc, if_pos rfl]
      simp only [List.append_ne_nil_of_right_ne_nil]
      constructor
      · intro hx
        exact absurd hx (by simp)
      · rintro ⟨hall, hne⟩
        have : outcomes.countP (fun o => o.isNone) = outcomes.length :=
          List.countP_eq_length.mpr (by intro a ha; rw [hall a ha]; rfl)
        rw [hc] at this
        exact absurd (List.length_eq_zero.mp this.symm) hne
    · rw [if_neg (by omega)]
      rw [hnil]
      constructor
      · intro hall
        refine ⟨hall, ?_⟩
        intro hx
        rw [hx] at hc
        exact absurd hc (by decide)
      · exact fun hx => hx.1

/-- Witness for C9 (amended): one failing export yields failure carrying
that error, and the zero-launch VPC invocation yields a non-empty error
slice. -/
theorem export_outcome_aggregation_witness :
    handleEventOutcome [some ("boom".data)] = ("failure".data, some ("boom".data)) ∧
    ¬ (ProcessAndExportVpcFlowLogs 3 []).2 = [] := by
  constructor
  · exact (export_outcome_aggregation [some ("boom".data)] 3).2.1 ("boom".data) (by decide)
  · intro h
    exact ((export_outcome_aggregation [] 3).2.2.mp h).2 rfl

/-! ## OTLP request builder (src/unnamed/part_007, middle revision)

pdata attribute maps are association lists in insertion order: Upsert
updates an existing key in place or appends, Insert only appends when the
key is absent, Delete removes the key. Attribute values are strings or
64-bit ints (the only cases AddLogEntry handles). -/

inductive AttrVal where
  | str : Str → AttrVal
  | int : Int → AttrVal
deriving DecidableEq

abbrev Attrs := List (Str × AttrVal)

def attrsGet (m : Attrs) (k : Str) : Option AttrVal :=
  (List.find? (fun kv => kv.1 = k) m).map (fun kv => kv.2)

def attrsUpsert (m : Attrs) (k : Str) (v : AttrVal) : Attrs :=
  if (attrsGet m k).isSome then
    m.map (fun kv => if kv.1 = k then (k, v) else kv)
  else m ++ [(k, v)]

def attrsInsert (m : Attrs) (k : Str) (v : AttrVal) : Attrs :=
  if (attrsGet m k).isSome then m else m ++ [(k, v)]

def attrsDelete (m : Attrs) (k : Str) : Attrs :=
  m.filter (fun kv => ! decide (kv.1 = k))

/-- semconv and literal attribute keys used by the builder. -/
def AttributeHostID : Str := "host.id".data
def AttributeCloudPlatform : Str := "cloud.platform".data
def AttributeCloudPlatformAWSEC2 : Str := "aws_ec2".data
def AttributeCloudAccountID : Str := "cloud.account.id".data
def AttributeAWSLogGroupNames : Str := "aws.log.group.names".data
def AttributeAWSLogStreamNames : Str := "aws.log.stream.names".data
def AttributeK8SContainerName : Str := "k8s.container.name".data
def AttributeK8SPodUID : Str := "k8s.pod.uid".data
def AttributeK8SNamespaceName : Str := "k8s.namespace.name".data
def AttributeK8SPodName : Str := "k8s.pod.name".data
def AttributeContainerID : Str := "container.id".data
def AttributeK8SNodeName : Str := "k8s.node.name".data
def AttributeCloudRegion : Str := "cloud.region".data
def AttributeCloudProvider : Str := "cloud.provider".data
def AttributeCloudProviderAWS : Str := "aws".data
def ClusterUidKey : Str := "sw.k8s.cluster.uid".data
def ContainerImageKey : Str := "k8s.container.image.name".data
def ManifestVersionKey : Str := "sw.k8s.agent.manifest.version".data
def SwK8sLogTypeKey : Str := "sw.k8s.log.type".data

/-- One OTLP log record: name, timestamp, string body and attributes. -/
structure LogRecord where
  name : Str
  timestamp : Int
  body : Str
  attributes : Attrs
deriving DecidableEq

/-- A resource-logs entry of the payload: resource attributes plus the
instrumentation-library (scope) slices, each a list of records. -/
structure ResourceLogsP where
  resourceAttrs : Attrs
  scopeRecords : List (List LogRecord)
deriving DecidableEq

/-- A pdata.Logs payload. -/
structure LogsP where
  resourceLogs : List ResourceLogsP
deriving DecidableEq

/-- otlpRequestBuilder state: the single resource-logs entry created by the
constructor (its attributes and scope slices), and the hostId,
parsedRegion, parsedHostId fields. -/
structure OtlpBuilder where
  resourceAttrs : Attrs
  scopeRecords : List (List LogRecord)
  hostId : Str
  parsedRegion : Str
  parsedHostId : Str
deriving DecidableEq

/-- NewOtlpRequestBuilder: fresh logs with one appended (empty) resource
logs entry and an empty scope slice. -/
def NewOtlpRequestBuilder : OtlpBuilder :=
  { resourceAttrs := [], scopeRecords := [], hostId := [],
    parsedRegion := [], parsedHostId := [] }

def SetHostId (rb : OtlpBuilder) (hostId : Str) : OtlpBuilder :=
  let rb := { rb with hostId := hostId }
  if ¬ rb.hostId = [] then
    { rb with resourceAttrs :=
        (attrsUpsert (attrsUpsert rb.resourceAttrs AttributeHostID (.str rb.hostId))
          AttributeCloudPlatform (.str AttributeCloudPlatformAWSEC2)) }
  else
    { rb with resourceAttrs :=
        (attrsDelete (attrsDelete rb.resourceAttrs AttributeHostID) AttributeCloudPlatform) }

def SetCloudAccount (rb : OtlpBuilder) (account : Str) : OtlpBuilder :=
  { rb with resourceAttrs := attrsUpsert rb.resourceAttrs AttributeCloudAccountID (.str account) }

def SetLogGroup (rb : OtlpBuilder) (logGroup : Str) : OtlpBuilder :=
  { rb with resourceAttrs := attrsUpsert rb.resourceAttrs AttributeAWSLogGroupNames (.str logGroup) }

/-- MatchContainerName: false when any of the four identity attributes is
absent; otherwise compares container name, the stored pod UID attribute
against the incoming pod name, namespace name and cluster uid. -/
def MatchContainerName (rb : OtlpBuilder)
    (clusterUid namespaceName podName containerName : Str) : Bool :=
  let attrs := rb.resourceAttrs
  match attrsGet attrs AttributeK8SContainerName, attrsGet attrs AttributeK8SPodUID,
      attrsGet attrs AttributeK8SNamespaceName, attrsGet attrs ClusterUidKey with
  | some cn, some pu, some nn, some cu =>
    cn = .str containerName && pu = .str podName && nn = .str namespaceName &&
      cu = .str clusterUid
  | _, _, _, _ => false

def HasContainerName (rb : OtlpBuilder) : Bool :=
  let attrs := rb.resourceAttrs
  (attrsGet attrs AttributeK8SContainerName).isSome &&
    (attrsGet attrs AttributeK8SPodUID).isSome &&
    (attrsGet attrs AttributeK8SNamespaceName).isSome &&
    (attrsGet attrs ClusterUidKey).isSome

def SetKubernetesPodName (rb : OtlpBuilder) (podName : Str) : OtlpBuilder :=
  { rb with resourceAttrs := attrsUpsert rb.resourceAttrs AttributeK8SPodName (.str podName) }

def SetKubernetesNamespaceName (rb : OtlpBuilder) (namespaceName : Str) : OtlpBuilder :=
  { rb with resourceAttrs := attrsUpsert rb.resourceAttrs AttributeK8SNamespaceName (.str namespaceName) }

def SetKubernetesClusterUid (rb : OtlpBuilder) (clusterUid : Str) : OtlpBuilder :=
  { rb with resourceAttrs := attrsUpsert rb.resourceAttrs ClusterUidKey (.str clusterUid) }

def SetKubernetesContainerName (rb : OtlpBuilder) (containerName : Str) : OtlpBuilder :=
  { rb with resourceAttrs := attrsUpsert rb.resourceAttrs AttributeK8SContainerName (.str containerName) }

def SetKubernetesContainerImage (rb : OtlpBuilder) (containerImage : Str) : OtlpBuilder :=
  { rb with resourceAttrs := attrsUpsert rb.resourceAttrs ContainerImageKey (.str containerImage) }

def SetKubernetesPodUID (rb : OtlpBuilder) (podUID : Str) : OtlpBuilder :=
  { rb with resourceAttrs := attrsUpsert rb.resourceAttrs AttributeK8SPodUID (.str podUID) }

def SetKubernetesContainerId (rb : OtlpBuilder) (containerId : Str) : OtlpBuilder :=
  { rb with resourceAttrs := attrsUpsert rb.resourceAttrs AttributeContainerID (.str containerId) }

def SetKubernetesNodeName (rb : OtlpBuilder) (nodeName : Str) : OtlpBuilder :=
  { rb with resourceAttrs := attrsUpsert rb.resourceAttrs AttributeK8SNodeName (.str nodeName) }

/-- Pod labels are upserted one by one under the k8s.pod.labels. namespace;
the Go map iteration is modelled by the association list order. -/
def SetKubernetesPodLabels (rb : OtlpBuilder) (podLabels : List (Str × Str)) : OtlpBuilder :=
  { rb with resourceAttrs :=
      (podLabels.foldl (fun m kv =>
        attrsUpsert m ("k8s.pod.labels.".data ++ kv.1) (.str kv.2)) rb.resourceAttrs) }

/-- Pod annotation entries are upserted one by one, as with labels. -/
def SetKubernetesPodAnnotationsMap (rb : OtlpBuilder) (pa : List (Str × Str)) : OtlpBuilder :=
  { rb with resourceAttrs :=
      (pa.foldl (fun m kv =>
        attrsUpsert m ("k8s.pod.annotations.".data ++ kv.1) (.str kv.2)) rb.resourceAttrs) }

def SetKubernetesManifestVersion (rb : OtlpBuilder) (manifestVersion defaultVersion : Str) : OtlpBuilder :=
  let versionToSet := if manifestVersion = [] then defaultVersion else manifestVersion
  { rb with resourceAttrs := attrsUpsert rb.resourceAttrs ManifestVersionKey (.str versionToSet) }

def SetOtelAttributes (rb : OtlpBuilder) (podName containerName : Str) : OtlpBuilder :=
  { rb with resourceAttrs :=
      (attrsUpsert (attrsUpsert rb.resourceAttrs ("host.name".data) (.str podName))
        ("service.name".data) (.str containerName)) }

/-! ### The two log-stream regexes of part_007

detectHostIdRegExp is the anchored pattern of an i- or ip- literal followed
by at least one word-or-dash character; detectRegionRegExp is the leftmost
unanchored match of two word characters, a dash, a nonempty word run, a
dash and a nonempty digit run. The alternation i- versus ip- never needs
backtracking (the second character cannot be both a dash and the letter p),
and a greedy word run followed by a mandatory literal cannot re-split, so
the translations below are plain prefix scans. -/

/-- Go regexp word character class (ASCII). -/
def isWordChar (c : Char) : Bool :=
  ('a' ≤ c && c ≤ 'z') || ('A' ≤ c && c ≤ 'Z') || ('0' ≤ c && c ≤ '9') || c = '_'

def isWordDash (c : Char) : Bool := isWordChar c || c = '-'

/-- detectHostIdRegExp: anchored (i-|ip-)[word-dash]+ match, none when the
stream does not begin with such a host id. -/
def detectHostIdMatch (s : Str) : Option Str :=
  if strHasLead "i-".data s then
    let run := (s.drop 2).takeWhile isWordDash
    if run = [] then none else some ("i-".data ++ run)
  else if strHasLead "ip-".data s then
    let run := (s.drop 3).takeWhile isWordDash
    if run = [] then none else some ("ip-".data ++ run)
  else none

/-- detectRegionRegExp tried at one position: ww-word+-digit+. -/
def regionMatchHere (s : Str) : Option Str :=
  match s with
  | c1 :: c2 :: '-' :: rest =>
    if isWordChar c1 && isWordChar c2 then
      let w := rest.takeWhile isWordChar
      if w = [] then none
      else match rest.drop w.length with
        | '-' :: rest2 =>
          let d := rest2.takeWhile isDigitChar
          if d = [] then none
          else some (c1 :: c2 :: '-' :: w ++ '-' :: d)
        | _ => none
    else none
  | _ => none

/-- detectRegionRegExp: leftmost match anywhere in the stream. -/
def detectRegionMatch : Str → Option Str
  | [] => none
  | c :: rest =>
    match regionMatchHere (c :: rest) with
    | some m => some m
    | none => detectRegionMatch rest

/-- SetLogStream: insert the stream name attribute, parse host id and
region from the stream (keeping the old parsed values when the regexes do
not match), and when a host id was parsed and none is set yet, set the
host id to the WHOLE log-stream string. -/
def SetLogStream (rb : OtlpBuilder) (logStream : Str) : OtlpBuilder :=
  let rb := { rb with resourceAttrs :=
      (attrsInsert rb.resourceAttrs AttributeAWSLogStreamNames (.str logStream)) }
  let rb := { rb with parsedHostId := (detectHostIdMatch logStream).getD rb.parsedHostId }
  let rb := { rb with parsedRegion := (detectRegionMatch logStream).getD rb.parsedRegion }
  if ¬ rb.parsedHostId = [] && rb.hostId = [] then SetHostId rb logStream else rb

def MatchHostId (rb : OtlpBuilder) (hostId : Str) : Bool := rb.hostId = hostId

def HasHostId (rb : OtlpBuilder) : Bool := ¬ rb.hostId = []

/-- AddLogEntry: appends a scope when the slice is empty, then appends a
record to the first scope with the cloud.region attribute from the explicit
region or the parsed one, followed by the extra attribute maps. -/
def AddLogEntry (rb : OtlpBuilder) (itemId : Str) (timestamp : Int)
    (message : Str) (region : Str) (attributes : List Attrs) : OtlpBuilder :=
  let regionAttrs : Attrs :=
    if ¬ region = [] then attrsUpsert [] AttributeCloudRegion (.str region)
    else if ¬ rb.parsedRegion = [] then attrsUpsert [] AttributeCloudRegion (.str rb.parsedRegion)
    else []
  let entryAttrs := attributes.foldl (fun m attrs =>
    attrs.foldl (fun m kv => attrsUpsert m kv.1 kv.2) m) regionAttrs
  let entry : LogRecord :=
    { name := itemId, timestamp := timestamp, body := message, attributes := entryAttrs }
  match rb.scopeRecords with
  | [] => { rb with scopeRecords := [[entry]] }
  | scope0 :: rest => { rb with scopeRecords := (scope0 ++ [entry]) :: rest }

/-- GetLogs: inserts cloud.provider aws on the resource and returns the
payload (the builder is discarded by every caller after emitting). -/
def GetLogs (rb : OtlpBuilder) : LogsP :=
  { resourceLogs := [{
      resourceAttrs := attrsInsert rb.resourceAttrs AttributeCloudProvider (.str AttributeCloudProviderAWS),
      scopeRecords := rb.scopeRecords }] }

/-! ## Mode A classification results and the transform loop (main.go) -/

/-- Event type constants of main.go. -/
def fargateEvent : Str := "fargate".data
def ec2EventType : Str := "ec2".data

structure cloudInsightsAppLogKubernetes where
  PodName : Str
  NamespaceName : Str
  PodID : Str
  Labels : List (Str × Str)
  Annotations : List (Str × Str)
  ContainerName : Str
  DockerID : Str
  ContainerImage : Str
  Host : Str
deriving DecidableEq

structure cloudInsightsAppLog where
  Kubernetes : cloudInsightsAppLogKubernetes
  ClusterUID : Str
  LogType : Str
  ManifestVersion : Str
  Stream : Str
  Logtag : Str
  Log : Str
deriving DecidableEq

/-! detectInstanceNameAndRegion: the unanchored leftmost match of an
optional fargate- literal, an i- or ip- instance id of word-dash
characters, a dot, a nonempty word-dash region run and a dot. As before,
greedy word-dash runs followed by a mandatory dot admit no re-splits, and
the i-(ip- alternation is decided by the second character alone; the
optional fargate- group falls back to the empty match when the rest of the
pattern fails after it. -/

/-- The (i-|ip-)[word-dash]+ dot [word-dash]+ dot tail of the host
pattern, at the start of the input; yields (instance, region) groups. -/
def instanceRegionHere (t : Str) : Option (Str × Str) :=
  let core : Nat → Str → Option (Str × Str) := fun k pre =>
    let run := (t.drop k).takeWhile isWordDash
    if run = [] then none
    else match t.drop (k + run.length) with
      | '.' :: rest =>
        let rrun := rest.takeWhile isWordDash
        if rrun = [] then none
        else match rest.drop rrun.length with
          | '.' :: _ => some (pre ++ run, rrun)
          | _ => none
      | _ => none
  if strHasLead "i-".data t then core 2 ("i-".data)
  else if strHasLead "ip-".data t then core 3 ("ip-".data)
  else none

/-- The host pattern tried at one position; yields the (fargate, instance,
region) groups. -/
def hostMatchHere (s : Str) : Option (Str × Str × Str) :=
  if strHasLead "fargate-".data s then
    match instanceRegionHere (s.drop 8) with
    | some p => some ("fargate-".data, p.1, p.2)
    | none => (instanceRegionHere s).map (fun p => ([], p.1, p.2))
  else (instanceRegionHere s).map (fun p => ([], p.1, p.2))

/-- Leftmost match of detectInstanceNameAndRegion. -/
def findHostMatch : Str → Option (Str × Str × Str)
  | [] => none
  | c :: rest =>
    match hostMatchHere (c :: rest) with
    | some m => some m
    | none => findHostMatch rest

/-- cloudInsightsAppLog.parse: the (parsedInstanceId, parsedRegion) fields
resulting from matching the kubernetes host; a fargate match clears the
instance id. -/
def appLogParsed (l : cloudInsightsAppLog) : Str × Str :=
  match findHostMatch l.Kubernetes.Host with
  | none => ([], [])
  | some (f, i, r) =>
    let pid := if ¬ f = [] then [] else if ¬ i = [] then i else []
    let pr := if ¬ r = [] then r else []
    (pid, pr)

/-- cloudInsightsAppLog.getInstanceId: the parsed instance id, or an error
(none) when it is empty. -/
def appLogGetInstanceId (l : cloudInsightsAppLog) : Option Str :=
  let result := (appLogParsed l).1
  if result = [] then none else some result

/-- cloudInsightsAppLog.getEventType: fargate when the host matches with a
nonempty fargate group, ec2 otherwise. -/
def appLogGetEventType (l : cloudInsightsAppLog) : Str :=
  match findHostMatch l.Kubernetes.Host with
  | some (f, _, _) => if ¬ f = [] then fargateEvent else ec2EventType
  | none => ec2EventType

def appLogGetRegion (l : cloudInsightsAppLog) : Str := (appLogParsed l).2

/-- setKubernetesInfo from main.go: populates every kubernetes resource
attribute of the builder from the fargate app log. -/
def setKubernetesInfo (rb : OtlpBuilder) (l : cloudInsightsAppLog)
    (lambdaVersion : Str) : OtlpBuilder :=
  SetOtelAttributes
    (SetKubernetesManifestVersion
      (SetKubernetesPodAnnotationsMap
        (SetKubernetesPodLabels
          (SetKubernetesNodeName
            (SetKubernetesClusterUid
              (SetKubernetesContainerImage
                (SetKubernetesContainerId
                  (SetKubernetesContainerName
                    (SetKubernetesPodUID
                      (SetKubernetesNamespaceName
                        (SetKubernetesPodName rb l.Kubernetes.PodName)
                        l.Kubernetes.NamespaceName)
                      l.Kubernetes.PodID)
                    l.Kubernetes.ContainerName)
                  l.Kubernetes.DockerID)
                l.Kubernetes.ContainerImage)
              l.ClusterUID)
            l.Kubernetes.Host)
          l.Kubernetes.Labels)
        l.Kubernetes.Annotations)
      l.ManifestVersion lambdaVersion)
    l.Kubernetes.PodName l.Kubernetes.ContainerName

/-- The per-item outcome of parseMessage, carried on the item: not a JSON
object (notOk), a cloud-insights app log, or any other recognised event
abstracted to its getInstanceId and getRegion results. parseMessage itself
is modelled separately for the classifier claim. -/
inductive ParsedMsg where
  | notOk
  | appLog (l : cloudInsightsAppLog)
  | otherEvent (instanceId : Option Str) (region : Str)
deriving DecidableEq

structure LogItem where
  ID : Str
  Timestamp : Int
  Message : Str
  parsed : ParsedMsg
deriving DecidableEq

def timestampMultiplier : Int := 1000000

/-- The builder every (re)start constructs: NewOtlpRequestBuilder with
cloud account, log group and log stream applied. -/
def freshBuilder (account logGroup logStream : Str) : OtlpBuilder :=
  SetLogStream (SetLogGroup (SetCloudAccount NewOtlpRequestBuilder account) logGroup) logStream

/-- The host-id transition block shared by all parsed events: set the host
id when none is set, or emit and restart when a different one arrives. -/
def hostIdStep (account logGroup logStream : Str)
    (rb : OtlpBuilder) (out : List LogsP) (instanceId? : Option Str) :
    OtlpBuilder × List LogsP :=
  match instanceId? with
  | some instanceId =>
    if ! HasHostId rb then (SetHostId rb instanceId, out)
    else if ! MatchHostId rb instanceId then
      (SetHostId (freshBuilder account logGroup logStream) instanceId, out ++ [GetLogs rb])
    else (rb, out)
  | none => (rb, out)

/-- One iteration of the transformLogEvents loop. -/
def stepItem (account logGroup logStream lambdaRegion lambdaVersion : Str)
    (st : OtlpBuilder × List LogsP) (item : LogItem) : OtlpBuilder × List LogsP :=
  let rb := st.1
  let out := st.2
  let timestamp := item.Timestamp * timestampMultiplier
  match item.parsed with
  | .notOk =>
    if HasHostId rb && ! MatchHostId rb logStream then
      (AddLogEntry (freshBuilder account logGroup logStream) item.ID timestamp item.Message lambdaRegion [],
        out ++ [GetLogs rb])
    else (AddLogEntry rb item.ID timestamp item.Message lambdaRegion [], out)
  | .appLog l =>
    let st1 := hostIdStep account logGroup logStream rb out (appLogGetInstanceId l)
    if appLogGetEventType l = fargateEvent then
      let st2 :=
        if ! HasContainerName st1.1 then (setKubernetesInfo st1.1 l lambdaVersion, st1.2)
        else if ! MatchContainerName st1.1 l.ClusterUID l.Kubernetes.NamespaceName
            l.Kubernetes.PodName l.Kubernetes.ContainerName then
          (setKubernetesInfo (freshBuilder account logGroup logStream) l lambdaVersion,
            st1.2 ++ [GetLogs st1.1])
        else st1
      (AddLogEntry st2.1 item.ID timestamp l.Log (appLogGetRegion l)
        [[(SwK8sLogTypeKey, .str l.LogType)]], st2.2)
    else
      (AddLogEntry st1.1 item.ID timestamp item.Message (appLogGetRegion l) [], st1.2)
  | .otherEvent instanceId? region =>
    let st1 := hostIdStep account logGroup logStream rb out instanceId?
    (AddLogEntry st1.1 item.ID timestamp item.Message region [], st1.2)

/-- transformLogEvents: fold the loop over the input from a fresh builder
and emit the final payload (the trailing length check is always true). -/
def transformLogEvents (account logGroup logStream lambdaRegion lambdaVersion : Str)
    (input : List LogItem) : List LogsP :=
  let st := input.foldl (stepItem account logGroup logStream lambdaRegion lambdaVersion)
    (freshBuilder account logGroup logStream, [])
  st.2 ++ [GetLogs st.1]

/-- C6 counterexample: a builder that never received AddLogEntry yields a
payload whose single resource has ZERO scopes, not the one scope the claim
promises (the scope is only appended by the first AddLogEntry). -/
theorem builder_no_entries_zero_scopes_cx :
    ((GetLogs NewOtlpRequestBuilder).resourceLogs.map (fun r => r.scopeRecords.length)) = [0] ∧
    ¬ ((GetLogs NewOtlpRequestBuilder).resourceLogs.map (fun r => r.scopeRecords.length)) = [1] := by
  exact ⟨rfl, by decide⟩

/-- C6 (amended): a builder that never received AddLogEntry returns from
GetLogs a payload with exactly one resource, zero scopes (hence zero log
records), and cloud.provider equal to aws stamped on the resource. -/
theorem builder_no_entries_payload :
    (GetLogs NewOtlpRequestBuilder).resourceLogs.length = 1 ∧
    ((GetLogs NewOtlpRequestBuilder).resourceLogs.map (fun r => r.scopeRecords)) = [[]] ∧
    ((GetLogs NewOtlpRequestBuilder).resourceLogs.map
      (fun r => attrsGet r.resourceAttrs AttributeCloudProvider)) =
      [some (.str AttributeCloudProviderAWS)] := by
  refine ⟨rfl, rfl, by decide⟩

/-! ### Attribute-map lemmas -/

theorem find?_congrPred {α : Type} (p q : α → Bool) (h : ∀ a, p a = q a) :
    ∀ l : List α, l.find? p = l.find? q
  | [] => rfl
  | a :: as => by rw [List.find?_cons, List.find?_cons, h a, find?_congrPred p q h as]

theorem attrsGet_upsert_same (m : Attrs) (k : Str) (v : AttrVal) :
    attrsGet (attrsUpsert m k v) k = some v := by
  rw [attrsUpsert]
  by_cases h : (attrsGet m k).isSome
  · rw [if_pos h]
    rw [attrsGet, List.find?_map]
    have hpred : ∀ kv : Str × AttrVal,
        ((fun kv => decide (kv.1 = k)) ∘ (fun kv => if kv.1 = k then (k, v) else kv)) kv =
          decide (kv.1 = k) := by
      intro kv
      by_cases hk : kv.1 = k
      · simp [hk]
      · simp [hk]
    rw [find?_congrPred _ _ hpred m]
    cases hf : List.find? (fun kv => decide (kv.1 = k)) m with
    | none =>
      rw [attrsGet, hf] at h
      simp at h
    | some kv0 =>
      have hk0 : kv0.1 = k := by simpa using List.find?_some hf
      simp [hk0]
  · rw [if_neg h]
    rw [attrsGet, List.find?_append]
    cases hf : List.find? (fun kv => decide (kv.1 = k)) m with
    | none => simp
    | some kv0 =>
      rw [attrsGet, hf] at h
      simp at h

theorem attrsGet_upsert_ne (m : Attrs) (k k' : Str) (v : AttrVal) (h : ¬ k' = k) :
    attrsGet (attrsUpsert m k v) k' = attrsGet m k' := by
  rw [attrsUpsert]
  by_cases hs : (attrsGet m k).isSome
  · rw [if_pos hs]
    rw [attrsGet, List.find?_map]
    have hpred : ∀ kv : Str × AttrVal,
        ((fun kv => decide (kv.1 = k')) ∘ (fun kv => if kv.1 = k then (k, v) else kv)) kv =
          decide (kv.1 = k') := by
      intro kv
      by_cases hk : kv.1 = k
      · have hkk : ¬ k = k' := fun hx => h hx.symm
        simp [hk, hkk]
      · simp [hk]
    rw [find?_congrPred _ _ hpred m]
    rw [attrsGet]
    cases hf : List.find? (fun kv => decide (kv.1 = k')) m with
    | none => simp
    | some kv0 =>
      have hk0 : kv0.1 = k' := by simpa using List.find?_some hf
      have hne : ¬ kv0.1 = k := by
        rw [hk0]
        exact h
      simp [hne]
  · rw [if_neg hs]
    rw [attrsGet, List.find?_append, attrsGet]
    cases hf : List.find? (fun kv => decide (kv.1 = k')) m with
    | none =>
      have hkk : ¬ k = k' := fun hx => h hx.symm
      simp [hkk]
    | some kv0 => simp

theorem attrsGet_insert_ne (m : Attrs) (k k' : Str) (v : AttrVal) (h : ¬ k' = k) :
    attrsGet (attrsInsert m k v) k' = attrsGet m k' := by
  rw [attrsInsert]
  by_cases hs : (attrsGet m k).isSome
  · rw [if_pos hs]
  · rw [if_neg hs]
    rw [attrsGet, List.find?_append, attrsGet]
    cases hf : List.find? (fun kv => decide (kv.1 = k')) m with
    | none =>
      have hkk : ¬ k = k' := fun hx => h hx.symm
      simp [hkk]
    | some kv0 => simp

theorem attrsGet_insert_of_absent (m : Attrs) (k : Str) (v : AttrVal)
    (h : attrsGet m k = none) :
    attrsGet (attrsInsert m k v) k = some v := by
  rw [attrsInsert, if_neg (by simp [h])]
  rw [attrsGet, List.find?_append]
  rw [attrsGet] at h
  cases hf : List.find? (fun kv => decide (kv.1 = k)) m with
  | none => simp
  | some kv0 =>
    rw [hf] at h
    simp at h

theorem strHasLead_append (p t : Str) : strHasLead p (p ++ t) = true := by
  induction p with
  | nil => rfl
  | cons c cs ih => simp [strHasLead, ih]

/-- Upserting a run of keys under a distinct dotted namespace leaves other
keys untouched. -/
theorem attrsGet_prefixed_fold (ps : List (Str × Str)) (m : Attrs) (p k : Str)
    (h : strHasLead p k = false) :
    attrsGet (ps.foldl (fun m kv => attrsUpsert m (p ++ kv.1) (.str kv.2)) m) k =
      attrsGet m k := by
  induction ps generalizing m with
  | nil => rfl
  | cons kv rest ih =>
    rw [List.foldl_cons, ih]
    apply attrsGet_upsert_ne
    intro hx
    rw [hx, strHasLead_append] at h
    exact absurd h (by simp)

/-- A host-id match is a nonempty string and forces the stream itself to
be nonempty. -/
theorem detectHostIdMatch_shape (s m : Str) (h : detectHostIdMatch s = some m) :
    ¬ m = [] ∧ ¬ s = [] := by
  rw [detectHostIdMatch] at h
  by_cases h1 : strHasLead ("i-".data) s = true
  · rw [if_pos h1] at h
    simp only [] at h
    by_cases h2 : (s.drop 2).takeWhile isWordDash = []
    · rw [if_pos h2] at h
      exact absurd h (by simp)
    · rw [if_neg h2] at h
      have hm := Option.some.inj h
      refine ⟨?_, ?_⟩
      · rw [← hm]
        simp
      · intro hs
        rw [hs] at h1
        simp [strHasLead] at h1
  · rw [if_neg h1] at h
    by_cases h3 : strHasLead ("ip-".data) s = true
    · rw [if_pos h3] at h
      simp only [] at h
      by_cases h4 : (s.drop 3).takeWhile isWordDash = []
      · rw [if_pos h4] at h
        exact absurd h (by simp)
      · rw [if_neg h4] at h
        have hm := Option.some.inj h
        refine ⟨?_, ?_⟩
        · rw [← hm]
          simp
        · intro hs
          rw [hs] at h3
          simp [strHasLead] at h3
    · rw [if_neg h3] at h
      exact absurd h (by simp)

/-- C7 (amended): SetLogStream detects the instance id (anchored i-(ip-
pattern) and the region (leftmost ww-word-digit pattern) from the stream
name, and when an instance-id prefix matches on a builder with no host id
set, the host id — and with it the host.id and cloud.platform aws_ec2
resource attributes — is set to the WHOLE log-stream string, not to the
detected instance id. -/
theorem setLogStream_sets_whole_stream (s m : Str)
    (h : detectHostIdMatch s = some m) :
    (SetLogStream NewOtlpRequestBuilder s).parsedHostId = m ∧
    (SetLogStream NewOtlpRequestBuilder s).parsedRegion = (detectRegionMatch s).getD [] ∧
    (SetLogStream NewOtlpRequestBuilder s).hostId = s ∧
    attrsGet (SetLogStream NewOtlpRequestBuilder s).resourceAttrs AttributeHostID =
      some (.str s) ∧
    attrsGet (SetLogStream NewOtlpRequestBuilder s).resourceAttrs AttributeCloudPlatform =
      some (.str AttributeCloudPlatformAWSEC2) := by
  obtain ⟨hm, hs⟩ := detectHostIdMatch_shape s m h
  rw [SetLogStream]
  simp only [h, Option.getD]
  rw [if_pos (by simp [NewOtlpRequestBuilder, hm])]
  rw [SetHostId]
  simp only [NewOtlpRequestBuilder]
  rw [if_pos (by simpa using hs)]
  refine ⟨rfl, rfl, rfl, ?_, ?_⟩
  · rw [attrsGet_upsert_ne _ _ _ _ (by decide), attrsGet_upsert_same]
  · rw [attrsGet_upsert_same]

/-- Witness for C7 (amended) at a stream carrying both an instance id and
a region. -/
theorem setLogStream_sets_whole_stream_witness :
    (SetLogStream NewOtlpRequestBuilder ("i-0abc123.us-east-2.suffix".data)).parsedHostId =
      "i-0abc123".data ∧
    (SetLogStream NewOtlpRequestBuilder ("i-0abc123.us-east-2.suffix".data)).parsedRegion =
      (detectRegionMatch ("i-0abc123.us-east-2.suffix".data)).getD [] ∧
    (SetLogStream NewOtlpRequestBuilder ("i-0abc123.us-east-2.suffix".data)).hostId =
      "i-0abc123.us-east-2.suffix".data ∧
    attrsGet (SetLogStream NewOtlpRequestBuilder ("i-0abc123.us-east-2.suffix".data)).resourceAttrs
      AttributeHostID = some (.str ("i-0abc123.us-east-2.suffix".data)) ∧
    attrsGet (SetLogStream NewOtlpRequestBuilder ("i-0abc123.us-east-2.suffix".data)).resourceAttrs
      AttributeCloudPlatform = some (.str AttributeCloudPlatformAWSEC2) :=
  setLogStream_sets_whole_stream ("i-0abc123.us-east-2.suffix".data) ("i-0abc123".data)
    (by decide)

/-- C7 counterexample: on the stream i-0abc123.us-east-2.suffix the
detected instance id is i-0abc123, yet the host id the builder sets is the
whole stream string, not the detected instance id as the claim states. -/
theorem setLogStream_not_detected_id_cx :
    detectHostIdMatch ("i-0abc123.us-east-2.suffix".data) = some ("i-0abc123".data) ∧
    (SetLogStream NewOtlpRequestBuilder ("i-0abc123.us-east-2.suffix".data)).hostId =
      "i-0abc123.us-east-2.suffix".data ∧
    ¬ (SetLogStream NewOtlpRequestBuilder ("i-0abc123.us-east-2.suffix".data)).hostId =
      "i-0abc123".data := by
  refine ⟨by decide, by decide, by decide⟩

/-- A fargate-classified app log has no instance id: the fargate host
match clears parsedInstanceId, so getInstanceId errors. -/
theorem fargate_no_instance_id (l : cloudInsightsAppLog)
    (hf : appLogGetEventType l = fargateEvent) :
    appLogGetInstanceId l = none := by
  rw [appLogGetEventType] at hf
  rw [appLogGetInstanceId, appLogParsed]
  cases hfm : findHostMatch l.Kubernetes.Host with
  | none =>
    rw [hfm] at hf
    exact absurd hf (by decide)
  | some t =>
    obtain ⟨f, i, r⟩ := t
    rw [hfm] at hf
    by_cases hfe : f = []
    · simp [hfe] at hf
      exact absurd hf (by decide)
    · simp [hfe]

/-- Projection facts for the kubernetes setters. -/
theorem resourceAttrs_SetKubernetesPodName (rb : OtlpBuilder) (x : Str) :
    (SetKubernetesPodName rb x).resourceAttrs =
      attrsUpsert rb.resourceAttrs AttributeK8SPodName (.str x) := rfl

theorem resourceAttrs_SetKubernetesNamespaceName (rb : OtlpBuilder) (x : Str) :
    (SetKubernetesNamespaceName rb x).resourceAttrs =
      attrsUpsert rb.resourceAttrs AttributeK8SNamespaceName (.str x) := rfl

theorem resourceAttrs_SetKubernetesClusterUid (rb : OtlpBuilder) (x : Str) :
    (SetKubernetesClusterUid rb x).resourceAttrs =
      attrsUpsert rb.resourceAttrs ClusterUidKey (.str x) := rfl

theorem resourceAttrs_SetKubernetesContainerName (rb : OtlpBuilder) (x : Str) :
    (SetKubernetesContainerName rb x).resourceAttrs =
      attrsUpsert rb.resourceAttrs AttributeK8SContainerName (.str x) := rfl

theorem resourceAttrs_SetKubernetesContainerImage (rb : OtlpBuilder) (x : Str) :
    (SetKubernetesContainerImage rb x).resourceAttrs =
      attrsUpsert rb.resourceAttrs ContainerImageKey (.str x) := rfl

theorem resourceAttrs_SetKubernetesPodUID (rb : OtlpBuilder) (x : Str) :
    (SetKubernetesPodUID rb x).resourceAttrs =
      attrsUpsert rb.resourceAttrs AttributeK8SPodUID (.str x) := rfl

theorem resourceAttrs_SetKubernetesContainerId (rb : OtlpBuilder) (x : Str) :
    (SetKubernetesContainerId rb x).resourceAttrs =
      attrsUpsert rb.resourceAttrs AttributeContainerID (.str x) := rfl

theorem resourceAttrs_SetKubernetesNodeName (rb : OtlpBuilder) (x : Str) :
    (SetKubernetesNodeName rb x).resourceAttrs =
      attrsUpsert rb.resourceAttrs AttributeK8SNodeName (.str x) := rfl

theorem resourceAttrs_SetKubernetesPodLabels (rb : OtlpBuilder) (ps : List (Str × Str)) :
    (SetKubernetesPodLabels rb ps).resourceAttrs =
      ps.foldl (fun m kv => attrsUpsert m ("k8s.pod.labels.".data ++ kv.1) (.str kv.2))
        rb.resourceAttrs := rfl

theorem resourceAttrs_SetKubernetesPodAnnotationsMap (rb : OtlpBuilder)
    (ps : List (Str × Str)) :
    (SetKubernetesPodAnnotationsMap rb ps).resourceAttrs =
      ps.foldl (fun m kv => attrsUpsert m ("k8s.pod.annotations.".data ++ kv.1) (.str kv.2))
        rb.resourceAttrs := rfl

theorem resourceAttrs_SetKubernetesManifestVersion (rb : OtlpBuilder) (mv dv : Str) :
    (SetKubernetesManifestVersion rb mv dv).resourceAttrs =
      attrsUpsert rb.resourceAttrs ManifestVersionKey
        (.str (if mv = [] then dv else mv)) := rfl

theorem resourceAttrs_SetOtelAttributes (rb : OtlpBuilder) (p c : Str) :
    (SetOtelAttributes rb p c).resourceAttrs =
      attrsUpsert (attrsUpsert rb.resourceAttrs ("host.name".data) (.str p))
        ("service.name".data) (.str c) := rfl

/-- After setKubernetesInfo populates the builder from an app log, a
second record with the same identity tuple matches iff the pod id equals
the pod name: MatchContainerName compares the stored pod-UID attribute
against the incoming pod NAME. -/
theorem matchContainerName_after_set (rb : OtlpBuilder) (l : cloudInsightsAppLog)
    (lv : Str) :
    MatchContainerName (setKubernetesInfo rb l lv) l.ClusterUID l.Kubernetes.NamespaceName
      l.Kubernetes.PodName l.Kubernetes.ContainerName =
      decide (l.Kubernetes.PodID = l.Kubernetes.PodName) := by
  have hcn : attrsGet (setKubernetesInfo rb l lv).resourceAttrs AttributeK8SContainerName =
      some (.str l.Kubernetes.ContainerName) := by
    rw [setKubernetesInfo, resourceAttrs_SetOtelAttributes,
      attrsGet_upsert_ne _ _ _ _ (by decide), attrsGet_upsert_ne _ _ _ _ (by decide),
      resourceAttrs_SetKubernetesManifestVersion, attrsGet_upsert_ne _ _ _ _ (by decide),
      resourceAttrs_SetKubernetesPodAnnotationsMap, attrsGet_prefixed_fold _ _ _ _ (by decide),
      resourceAttrs_SetKubernetesPodLabels, attrsGet_prefixed_fold _ _ _ _ (by decide),
      resourceAttrs_SetKubernetesNodeName, attrsGet_upsert_ne _ _ _ _ (by decide),
      resourceAttrs_SetKubernetesClusterUid, attrsGet_upsert_ne _ _ _ _ (by decide),
      resourceAttrs_SetKubernetesContainerImage, attrsGet_upsert_ne _ _ _ _ (by decide),
      resourceAttrs_SetKubernetesContainerId, attrsGet_upsert_ne _ _ _ _ (by decide),
      resourceAttrs_SetKubernetesContainerName, attrsGet_upsert_same]
  have hpu : attrsGet (setKubernetesInfo rb l lv).resourceAttrs AttributeK8SPodUID =
      some (.str l.Kubernetes.PodID) := by
    rw [setKubernetesInfo, resourceAttrs_SetOtelAttributes,
      attrsGet_upsert_ne _ _ _ _ (by decide), attrsGet_upsert_ne _ _ _ _ (by decide),
      resourceAttrs_SetKubernetesManifestVersion, attrsGet_upsert_ne _ _ _ _ (by decide),
      resourceAttrs_SetKubernetesPodAnnotationsMap, attrsGet_prefixed_fold _ _ _ _ (by decide),
      resourceAttrs_SetKubernetesPodLabels, attrsGet_prefixed_fold _ _ _ _ (by decide),
      resourceAttrs_SetKubernetesNodeName, attrsGet_upsert_ne _ _ _ _ (by decide),
      resourceAttrs_SetKubernetesClusterUid, attrsGet_upsert_ne _ _ _ _ (by decide),
      resourceAttrs_SetKubernetesContainerImage, attrsGet_upsert_ne _ _ _ _ (by decide),
      resourceAttrs_SetKubernetesContainerId, attrsGet_upsert_ne _ _ _ _ (by decide),
      resourceAttrs_SetKubernetesContainerName, attrsGet_upsert_ne _ _ _ _ (by decide),
      resourceAttrs_SetKubernetesPodUID, attrsGet_upsert_same]
  have hnn : attrsGet (setKubernetesInfo rb l lv).resourceAttrs AttributeK8SNamespaceName =
      some (.str l.Kubernetes.NamespaceName) := by
    rw [setKubernetesInfo, resourceAttrs_SetOtelAttributes,
      attrsGet_upsert_ne _ _ _ _ (by decide), attrsGet_upsert_ne _ _ _ _ (by decide),
      resourceAttrs_SetKubernetesManifestVersion, attrsGet_upsert_ne _ _ _ _ (by decide),
      resourceAttrs_SetKubernetesPodAnnotationsMap, attrsGet_prefixed_fold _ _ _ _ (by decide),
      resourceAttrs_SetKubernetesPodLabels, attrsGet_prefixed_fold _ _ _ _ (by decide),
      resourceAttrs_SetKubernetesNodeName, attrsGet_upsert_ne _ _ _ _ (by decide),
      resourceAttrs_SetKubernetesClusterUid, attrsGet_upsert_ne _ _ _ _ (by decide),
      resourceAttrs_SetKubernetesContainerImage, attrsGet_upsert_ne _ _ _ _ (by decide),
      resourceAttrs_SetKubernetesContainerId, attrsGet_upsert_ne _ _ _ _ (by decide),
      resourceAttrs_SetKubernetesContainerName, attrsGet_upsert_ne _ _ _ _ (by decide),
      resourceAttrs_SetKubernetesPodUID, attrsGet_upsert_ne _ _ _ _ (by decide),
      resourceAttrs_SetKubernetesNamespaceName, attrsGet_upsert_same]
  have hcu : attrsGet (setKubernetesInfo rb l lv).resourceAttrs ClusterUidKey =
      some (.str l.ClusterUID) := by
    rw [setKubernetesInfo, resourceAttrs_SetOtelAttributes,
      attrsGet_upsert_ne _ _ _ _ (by decide), attrsGet_upsert_ne _ _ _ _ (by decide),
      resourceAttrs_SetKubernetesManifestVersion, attrsGet_upsert_ne _ _ _ _ (by decide),
      resourceAttrs_SetKubernetesPodAnnotationsMap, attrsGet_prefixed_fold _ _ _ _ (by decide),
      resourceAttrs_SetKubernetesPodLabels, attrsGet_prefixed_fold _ _ _ _ (by decide),
      resourceAttrs_SetKubernetesNodeName, attrsGet_upsert_ne _ _ _ _ (by decide),
      resourceAttrs_SetKubernetesClusterUid, attrsGet_upsert_same]
  rw [MatchContainerName]
  simp only [hcn, hpu, hnn, hcu]
  simp [AttrVal.str.injEq]

/-- C3 (amended): for a Fargate app-log record, (i) with no container
identity set yet the step populates all kubernetes attributes and appends
the parsed log body (not the raw message) with the extra sw.k8s.log.type
attribute; (ii) when MatchContainerName rejects the tuple, the current
payload is emitted and a fresh populated builder takes over; but (iii) a
second record with the SAME (clusterUid, namespace, pod, container) tuple
matches — and thus avoids a transition — only when the pod id equals the
pod name, because MatchContainerName compares the stored pod-UID attribute
against the incoming pod name. -/
theorem fargate_container_transitions
    (account logGroup logStream lambdaRegion lambdaVersion : Str)
    (rb : OtlpBuilder) (out : List LogsP) (item : LogItem) (l : cloudInsightsAppLog)
    (hp : item.parsed = .appLog l)
    (hf : appLogGetEventType l = fargateEvent) :
    (HasContainerName rb = false →
      stepItem account logGroup logStream lambdaRegion lambdaVersion (rb, out) item =
        (AddLogEntry (setKubernetesInfo rb l lambdaVersion) item.ID
          (item.Timestamp * timestampMultiplier) l.Log (appLogGetRegion l)
          [[(SwK8sLogTypeKey, .str l.LogType)]], out)) ∧
    (HasContainerName rb = true →
      MatchContainerName rb l.ClusterUID l.Kubernetes.NamespaceName l.Kubernetes.PodName
        l.Kubernetes.ContainerName = false →
      stepItem account logGroup logStream lambdaRegion lambdaVersion (rb, out) item =
        (AddLogEntry (setKubernetesInfo (freshBuilder account logGroup logStream) l lambdaVersion)
          item.ID (item.Timestamp * timestampMultiplier) l.Log (appLogGetRegion l)
          [[(SwK8sLogTypeKey, .str l.LogType)]], out ++ [GetLogs rb])) ∧
    (MatchContainerName (setKubernetesInfo rb l lambdaVersion) l.ClusterUID
        l.Kubernetes.NamespaceName l.Kubernetes.PodName l.Kubernetes.ContainerName =
      decide (l.Kubernetes.PodID = l.Kubernetes.PodName)) := by
  have hiid : appLogGetInstanceId l = none := fargate_no_instance_id l hf
  refine ⟨?_, ?_, matchContainerName_after_set rb l lambdaVersion⟩
  · intro h1
    rw [stepItem, hp]
    simp only [hiid, hostIdStep, hf]
    simp [h1]
  · intro h1 h2
    rw [stepItem, hp]
    simp only [hiid, hostIdStep, hf]
    simp [h1, h2]

/-- Concrete fargate app log for the C3 witness and counterexample: pod id
and pod name differ, as they do for real pods. -/
def demoAppLog : cloudInsightsAppLog :=
  { Kubernetes :=
      { PodName := "pod-a".data, NamespaceName := "ns".data, PodID := "uid-1".data,
        Labels := [], Annotations := [], ContainerName := "app".data,
        DockerID := "d1".data, ContainerImage := "img".data,
        Host := "fargate-ip-10-0-0-1.us-east-2.compute.internal".data },
    ClusterUID := "cluster-1".data, LogType := "container".data,
    ManifestVersion := [], Stream := [], Logtag := [], Log := "hello".data }

def demoItem (id : Str) : LogItem :=
  { ID := id, Timestamp := 1, Message := "raw".data, parsed := .appLog demoAppLog }

/-- Witness for C3 (amended): first fargate record on a fresh builder
populates and appends the parsed body; the repopulated builder rejects the
same tuple because pod id and pod name differ. -/
theorem fargate_container_transitions_witness :
    (stepItem ("acct".data) ("grp".data) ("stream".data) ("us-east-1".data) ("v1".data)
      (freshBuilder ("acct".data) ("grp".data) ("stream".data), []) (demoItem ("1".data)) =
      (AddLogEntry
        (setKubernetesInfo (freshBuilder ("acct".data) ("grp".data) ("stream".data))
          demoAppLog ("v1".data))
        ((demoItem ("1".data)).ID) ((demoItem ("1".data)).Timestamp * timestampMultiplier)
        demoAppLog.Log (appLogGetRegion demoAppLog)
        [[(SwK8sLogTypeKey, .str demoAppLog.LogType)]], [])) ∧
    (MatchContainerName
        (setKubernetesInfo (freshBuilder ("acct".data) ("grp".data) ("stream".data))
          demoAppLog ("v1".data))
        demoAppLog.ClusterUID demoAppLog.Kubernetes.NamespaceName
        demoAppLog.Kubernetes.PodName demoAppLog.Kubernetes.ContainerName =
      decide (demoAppLog.Kubernetes.PodID = demoAppLog.Kubernetes.PodName)) := by
  have h := fargate_container_transitions ("acct".data) ("grp".data) ("stream".data)
    ("us-east-1".data) ("v1".data)
    (freshBuilder ("acct".data) ("grp".data) ("stream".data)) [] (demoItem ("1".data))
    demoAppLog rfl (by decide)
  exact ⟨h.1 (by decide), h.2.2⟩

/-- C3 counterexample: two consecutive fargate records with the SAME
(clusterUid, namespace, pod, container) tuple produce TWO payloads of one
record each — the claimed append-without-transition does not happen,
because the stored pod uid never equals the incoming pod name. -/
theorem fargate_same_tuple_transitions_cx :
    appLogGetEventType demoAppLog = fargateEvent ∧
    ((transformLogEvents ("acct".data) ("grp".data) ("stream".data) ("us-east-1".data)
        ("v1".data) [demoItem ("1".data), demoItem ("2".data)]).map
      (fun p => p.resourceLogs.map (fun r => r.scopeRecords.map List.length))) =
      [[[1]], [[1]]] ∧
    ¬ (transformLogEvents ("acct".data) ("grp".data) ("stream".data) ("us-east-1".data)
        ("v1".data) [demoItem ("1".data), demoItem ("2".data)]).length = 1 := by
  refine ⟨by decide, by decide, by decide⟩

/-! ## C2: parseMessage classification (main.go)

The raw message is modelled as Option JsonVal: none when the text is not
valid JSON, some j for the parsed JSON value. goUnmarshalMap models
json.Unmarshal into map[string]interface, which succeeds on an object (the
fields) and on null (a nil map, behaving as empty for lookups) and fails
otherwise. Object fields are looked up with the last occurrence winning, as
encoding/json does on duplicate keys. The typed-struct decodes model the
field-by-field type checks of json.Unmarshal for the concrete structs of
main.go (tag lookup is modelled as exact match; the case-insensitive
fallback of encoding/json is not modelled and no statement here depends on
it). -/

def jsonLookup (fields : List (Str × JsonVal)) (k : Str) : Option JsonVal :=
  (fields.reverse.find? (fun kv => kv.1 = k)).map (fun kv => kv.2)

def goUnmarshalMap : JsonVal → Option (List (Str × JsonVal))
  | .obj fields => some fields
  | .null => some []
  | _ => none

/-- testJsonPath with the path already split on dots: walk the maps; at
the last key, when a value is supplied it must be that string; an empty
path returns false (the loop never runs and the outer exists is unset). -/
def testJsonPathGo (fields : List (Str × JsonVal)) :
    List Str → Option Str → Bool
  | [], _ => false
  | [k], value =>
    match jsonLookup fields k with
    | none => false
    | some v =>
      match value with
      | some s =>
        match v with
        | .str sv => sv = s
        | _ => false
      | none => true
  | k :: k2 :: rest, value =>
    match jsonLookup fields k with
    | none => false
    | some (.obj f2) => testJsonPathGo f2 (k2 :: rest) value
    | some _ => false

/-- Unmarshal of one string struct field: absent, a string, or null. -/
def decodeStringField (fields : List (Str × JsonVal)) (tag : Str) : Bool :=
  match jsonLookup fields tag with
  | none => true
  | some (.str _) => true
  | some .null => true
  | some _ => false

/-- Unmarshal of a map[string]string field. -/
def decodeStringMapField (fields : List (Str × JsonVal)) (tag : Str) : Bool :=
  match jsonLookup fields tag with
  | none => true
  | some .null => true
  | some (.obj f2) =>
    f2.all (fun kv =>
      match kv.2 with
      | .str _ => true
      | .null => true
      | _ => false)
  | some _ => false

/-- cloudTrailEvent: three string fields. -/
def decodeCloudTrailEvent (fields : List (Str × JsonVal)) : Bool :=
  decodeStringField fields ("eventSource".data) &&
    decodeStringField fields ("eventName".data) &&
    decodeStringField fields ("awsRegion".data)

/-- ec2InstancesSetItems: items is a slice of objects with an instanceId
string field. -/
def decodeInstancesSetItems (fields : List (Str × JsonVal)) : Bool :=
  match jsonLookup fields ("items".data) with
  | none => true
  | some .null => true
  | some (.arr xs) =>
    xs.all (fun x =>
      match x with
      | .obj f4 => decodeStringField f4 ("instanceId".data)
      | .null => true
      | _ => false)
  | some _ => false

/-- ec2InstancesSet: one nested instancesSet struct. -/
def decodeInstancesSet (fields : List (Str × JsonVal)) (tag : Str) : Bool :=
  match jsonLookup fields tag with
  | none => true
  | some .null => true
  | some (.obj f2) =>
    (match jsonLookup f2 ("instancesSet".data) with
      | none => true
      | some .null => true
      | some (.obj f3) => decodeInstancesSetItems f3
      | some _ => false)
  | some _ => false

/-- ec2CloudTrailEvent: the embedded cloudTrailEvent fields plus the two
instances-set structs. -/
def decodeEc2CloudTrailEvent (fields : List (Str × JsonVal)) : Bool :=
  decodeCloudTrailEvent fields &&
    decodeInstancesSet fields ("requestParameters".data) &&
    decodeInstancesSet fields ("responseElements".data)

def decodeCloudInsightsLog (fields : List (Str × JsonVal)) : Bool :=
  decodeStringField fields ("ec2_instance_id".data) &&
    decodeStringField fields ("az".data)

def decodeAppLogKubernetes (fields : List (Str × JsonVal)) : Bool :=
  decodeStringField fields ("pod_name".data) &&
    decodeStringField fields ("namespace_name".data) &&
    decodeStringField fields ("pod_id".data) &&
    decodeStringMapField fields ("labels".data) &&
    decodeStringMapField fields ("annotations".data) &&
    decodeStringField fields ("container_name".data) &&
    decodeStringField fields ("docker_id".data) &&
    decodeStringField fields ("container_image".data) &&
    decodeStringField fields ("host".data)

def decodeCloudInsightsAppLog (fields : List (Str × JsonVal)) : Bool :=
  (match jsonLookup fields ("kubernetes".data) with
    | none => true
    | some .null => true
    | some (.obj f2) => decodeAppLogKubernetes f2
    | some _ => false) &&
    decodeStringField fields ("sw.k8s.cluster.uid".data) &&
    decodeStringField fields ("sw.k8s.log.type".data) &&
    decodeStringField fields ("sw.k8s.agent.manifest.version".data) &&
    decodeStringField fields ("stream".data) &&
    decodeStringField fields ("logtag".data) &&
    decodeStringField fields ("log".data)

def decodeCloudInsightsPerformance (fields : List (Str × JsonVal)) : Bool :=
  decodeStringField fields ("InstanceId".data) &&
    decodeStringField fields ("NodeName".data)

/-- The classification outcome of parseMessage: which typed event the
message becomes, Unknown for the (false, nil) outcome. -/
inductive MsgTag where
  | EC2AuditEvent
  | GenericAuditEvent
  | ClusterInsightsLog
  | FargateOrPodAppLog
  | ClusterInsightsPerformance
  | Unknown
deriving DecidableEq

/-- The five guard conditions of parseMessage, in source order: each block
returns its tag when the presence check matches AND the typed Unmarshal
succeeds, and otherwise falls through to the next block. -/
def ec2AuditCheck (fields : List (Str × JsonVal)) : Bool :=
  (testJsonPathGo fields [("eventSource".data)] (some ("ec2.amazonaws.com".data)) &&
    (testJsonPathGo fields [("requestParameters".data), ("instancesSet".data)] none ||
      testJsonPathGo fields [("responseElements".data), ("instancesSet".data)] none)) &&
    decodeEc2CloudTrailEvent fields

def genericAuditCheck (fields : List (Str × JsonVal)) : Bool :=
  testJsonPathGo fields [("eventVersion".data)] none && decodeCloudTrailEvent fields

def clusterInsightsCheck (fields : List (Str × JsonVal)) : Bool :=
  testJsonPathGo fields [("ec2_instance_id".data)] none && decodeCloudInsightsLog fields

def fargateAppLogCheck (fields : List (Str × JsonVal)) : Bool :=
  (testJsonPathGo fields [("kubernetes".data), ("host".data)] none &&
    testJsonPathGo fields [("kubernetes".data), ("namespace_name".data)] none) &&
    decodeCloudInsightsAppLog fields

def clusterPerformanceCheck (fields : List (Str × JsonVal)) : Bool :=
  (testJsonPathGo fields [("InstanceId".data)] none &&
    testJsonPathGo fields [("AutoScalingGroupName".data)] none) &&
    decodeCloudInsightsPerformance fields

/-- parseMessage as a classifier over the parsed message. -/
def parseMessageTag (msg : Option JsonVal) : MsgTag :=
  match msg with
  | none => .Unknown
  | some j =>
    match goUnmarshalMap j with
    | none => .Unknown
    | some fields =>
      if ec2AuditCheck fields then .EC2AuditEvent
      else if genericAuditCheck fields then .GenericAuditEvent
      else if clusterInsightsCheck fields then .ClusterInsightsLog
      else if fargateAppLogCheck fields then .FargateOrPodAppLog
      else if clusterPerformanceCheck fields then .ClusterInsightsPerformance
      else .Unknown

/-- Modelled from the spec: classification decided by the ordered
JSON-path PRESENCE checks alone, Unknown absorbing. -/
def specClassifyPresence (msg : Option JsonVal) : MsgTag :=
  match msg with
  | none => .Unknown
  | some j =>
    match goUnmarshalMap j with
    | none => .Unknown
    | some fields =>
      if testJsonPathGo fields [("eventSource".data)] (some ("ec2.amazonaws.com".data)) &&
          (testJsonPathGo fields [("requestParameters".data), ("instancesSet".data)] none ||
            testJsonPathGo fields [("responseElements".data), ("instancesSet".data)] none) then
        .EC2AuditEvent
      else if testJsonPathGo fields [("eventVersion".data)] none then .GenericAuditEvent
      else if testJsonPathGo fields [("ec2_instance_id".data)] none then .ClusterInsightsLog
      else if testJsonPathGo fields [("kubernetes".data), ("host".data)] none &&
          testJsonPathGo fields [("kubernetes".data), ("namespace_name".data)] none then
        .FargateOrPodAppLog
      else if testJsonPathGo fields [("InstanceId".data)] none &&
          testJsonPathGo fields [("AutoScalingGroupName".data)] none then
        .ClusterInsightsPerformance
      else .Unknown

/-- Modelled from the spec, amended: the ordered first-match classifier
whose guards are the presence checks AND the success of the typed decode. -/
def specClassifyOrdered (msg : Option JsonVal) : MsgTag :=
  match msg with
  | none => .Unknown
  | some j =>
    match goUnmarshalMap j with
    | none => .Unknown
    | some fields =>
      (((([(ec2AuditCheck fields, MsgTag.EC2AuditEvent),
          (genericAuditCheck fields, MsgTag.GenericAuditEvent),
          (clusterInsightsCheck fields, MsgTag.ClusterInsightsLog),
          (fargateAppLogCheck fields, MsgTag.FargateOrPodAppLog),
          (clusterPerformanceCheck fields, MsgTag.ClusterInsightsPerformance)]).find?
        (fun p => p.1)).map (fun p => p.2)).getD .Unknown)

/-- C2 counterexample: in the object with kubernetes.host = 5 and
kubernetes.namespace_name = x, the first matching presence check
(FargateOrPodAppLog) does NOT decide the tag: the typed Unmarshal of the
app log fails on the numeric host, parseMessage falls through, and the
outcome is Unknown. -/
theorem parse_message_decode_fallthrough_cx :
    specClassifyPresence (some (.obj [("kubernetes".data,
        .obj [("host".data, .num 5), ("namespace_name".data, .str ("x".data))])])) =
      .FargateOrPodAppLog ∧
    parseMessageTag (some (.obj [("kubernetes".data,
        .obj [("host".data, .num 5), ("namespace_name".data, .str ("x".data))])])) =
      .Unknown ∧
    ¬ parseMessageTag (some (.obj [("kubernetes".data,
        .obj [("host".data, .num 5), ("namespace_name".data, .str ("x".data))])])) =
      specClassifyPresence (some (.obj [("kubernetes".data,
        .obj [("host".data, .num 5), ("namespace_name".data, .str ("x".data))])])) := by
  refine ⟨by decide, by decide, by decide⟩

/-- C2 (amended): classification is total with Unknown as the absorbing
default — non-JSON input and non-object JSON are Unknown — and the tag is
the FIRST match, in the order EC2AuditEvent, GenericAuditEvent,
ClusterInsightsLog, FargateOrPodAppLog, ClusterInsightsPerformance, of the
guards combining each JSON-path presence check WITH the success of the
corresponding typed decode; a presence check whose typed decode fails does
not decide the tag but falls through. -/
theorem parse_message_ordered_first_match (msg : Option JsonVal) :
    parseMessageTag msg = specClassifyOrdered msg := by
  cases msg with
  | none => rfl
  | some j =>
    simp only [parseMessageTag, specClassifyOrdered]
    cases hg : goUnmarshalMap j with
    | none => simp [hg]
    | some fields =>
      simp only [hg]
      cases hc1 : ec2AuditCheck fields <;>
        cases hc2 : genericAuditCheck fields <;>
        cases hc3 : clusterInsightsCheck fields <;>
        cases hc4 : fargateAppLogCheck fields <;>
        cases hc5 : clusterPerformanceCheck fields <;>
        simp [hc1, hc2, hc3, hc4, hc5, List.find?]

/-! ## C1: Mode B format resolution and parser selection (part_008)

The provider API (EC2 flow-logs query) is abstracted as a function from
the log-group name to (format, id, count) or an error; the cache is the
flowLogFormatCache model above with the current time passed explicitly.
Context cancellation and debug logging are not modelled. -/

/-- VpcFlowLogsSupportedVersion from constants.go. -/
def VpcFlowLogsSupportedVersion : Str := "2".data

/-- getFlowLogFormatCached: consult the cache; on a hit return the cached
triple; on a miss query the provider and populate the cache, passing
provider errors through. -/
def getFlowLogFormatCached (cache : FlowLogFormatCache) (now : Int)
    (ec2 : Str → Except Str (Str × Str × Int)) (logGroupName : Str) :
    Except Str (Str × Str × Int) × FlowLogFormatCache :=
  let gr := cache.get now logGroupName
  if gr.1.found = true then
    (.ok (gr.1.logFormat, gr.1.flowLogId, gr.1.flowLogsCount), gr.2)
  else
    match ec2 logGroupName with
    | .error e => (.error e, gr.2)
    | .ok t => (.ok t, gr.2.set now logGroupName t.1 t.2.1 t.2.2)

/-- The per-record parser selection of the TransformVpcFlowLogs loop:
default parser iff isDefaultFormat holds of the resolved format, custom
parser with that format otherwise; failed records are skipped. -/
def parseAll (format : Str) (input : List Str) : List FlowLogRecord :=
  input.filterMap (fun msg =>
    match (if isDefaultFormat format then parseFlowLogRecordDefault msg
      else parseFlowLogRecordCustom msg format) with
    | .ok r => some r
    | .error _ => none)

/-- The observable outcome of one TransformVpcFlowLogs batch: the records
that produced metrics, the resolved format string, the cache afterwards,
and whether the batch aborted on a format-retrieval error. -/
structure TransformResult where
  emitted : List FlowLogRecord
  flowLogsFormat : Str
  cache : FlowLogFormatCache
  failed : Bool
deriving DecidableEq

/-- TransformVpcFlowLogs from part_008: the format is resolved through the
cache ONLY under the guard that the supported version differs from the
default version; otherwise the format stays empty and no query happens. -/
def TransformVpcFlowLogs (supportedVersion : Str) (cache : FlowLogFormatCache)
    (now : Int) (ec2 : Str → Except Str (Str × Str × Int)) (logGroup : Str)
    (input : List Str) : TransformResult :=
  if ¬ supportedVersion = VpcFlowLogsDefaultVersion then
    let r := getFlowLogFormatCached cache now ec2 logGroup
    match r.1 with
    | .error _ => { emitted := [], flowLogsFormat := [], cache := r.2, failed := true }
    | .ok t =>
      { emitted := parseAll t.1 input, flowLogsFormat := t.1, cache := r.2, failed := false }
  else
    { emitted := parseAll [] input, flowLogsFormat := [], cache := cache, failed := false }

theorem getFlowLogFormatCached_hit (cache : FlowLogFormatCache) (now : Int)
    (ec2 : Str → Except Str (Str × Str × Int)) (lg : Str)
    (hfound : (cache.get now lg).1.found = true) :
    getFlowLogFormatCached cache now ec2 lg =
      (.ok ((cache.get now lg).1.logFormat, (cache.get now lg).1.flowLogId,
        (cache.get now lg).1.flowLogsCount), (cache.get now lg).2) := by
  simp only [getFlowLogFormatCached]
  rw [if_pos hfound]

theorem getFlowLogFormatCached_miss (cache : FlowLogFormatCache) (now : Int)
    (ec2 : Str → Except Str (Str × Str × Int)) (lg : Str) (f id : Str) (n : Int)
    (hfound : (cache.get now lg).1.found = false)
    (hec2 : ec2 lg = .ok (f, id, n)) :
    getFlowLogFormatCached cache now ec2 lg =
      (.ok (f, id, n), ((cache.get now lg).2).set now lg f id n) := by
  simp only [getFlowLogFormatCached]
  rw [if_neg (by simp [hfound]), hec2]

/-- Demonstration provider: reports a custom format for every log group. -/
def ec2demo : Str → Except Str (Str × Str × Int) :=
  fun _ => .ok ("${interface-id} ${srcaddr}".data, "fl-1".data, 1)

/-- C1 counterexample: with the shipped constants the supported version
equals the default version, so a batch on a fresh cache never consults or
populates the format cache and parses with the default parser, even though
the provider would report a custom format; the claimed miss-then-populate
resolution does not happen. -/
theorem transform_never_consults_cache_cx :
    VpcFlowLogsSupportedVersion = VpcFlowLogsDefaultVersion ∧
    (TransformVpcFlowLogs VpcFlowLogsSupportedVersion ⟨[], 600⟩ 0 ec2demo ("grp".data)
      [("2 123456789012 eni-1 10.0.0.1 10.0.0.2 80 81 6 1 100 0 60 ACCEPT OK".data)]).flowLogsFormat =
      [] ∧
    cacheFind (TransformVpcFlowLogs VpcFlowLogsSupportedVersion ⟨[], 600⟩ 0 ec2demo ("grp".data)
      [("2 123456789012 eni-1 10.0.0.1 10.0.0.2 80 81 6 1 100 0 60 ACCEPT OK".data)]).cache.entries
      ("grp".data) = none ∧
    ¬ cacheFind (TransformVpcFlowLogs VpcFlowLogsSupportedVersion ⟨[], 600⟩ 0 ec2demo ("grp".data)
      [("2 123456789012 eni-1 10.0.0.1 10.0.0.2 80 81 6 1 100 0 60 ACCEPT OK".data)]).cache.entries
      ("grp".data) = some ⟨"${interface-id} ${srcaddr}".data, "fl-1".data, 1, 0⟩ := by
  refine ⟨by decide, by decide, by decide, by decide⟩

/-- C1 (amended): the format resolution of the claim is guarded: it only
happens when the supported version differs from the default version — and
with the shipped constants the two are equal, so no batch consults the
cache and every record is parsed with the default parser on the empty
format. Under the guard, the batch resolves the format exactly as claimed:
a cache hit returns the cached format without mutation; a miss queries the
provider and populates the cache; and each record is parsed with the
default parser iff isDefaultFormat holds of the resolved format, custom
parser with that format otherwise (the parseAll selection). -/
theorem transform_format_resolution (supportedVersion : Str)
    (cache : FlowLogFormatCache) (now : Int)
    (ec2 : Str → Except Str (Str × Str × Int)) (lg : Str) (input : List Str) :
    VpcFlowLogsSupportedVersion = VpcFlowLogsDefaultVersion ∧
    (supportedVersion = VpcFlowLogsDefaultVersion →
      TransformVpcFlowLogs supportedVersion cache now ec2 lg input =
        { emitted := parseAll [] input, flowLogsFormat := [], cache := cache,
          failed := false }) ∧
    (¬ supportedVersion = VpcFlowLogsDefaultVersion →
      ((cache.get now lg).1.found = true →
        TransformVpcFlowLogs supportedVersion cache now ec2 lg input =
          { emitted := parseAll (cache.get now lg).1.logFormat input,
            flowLogsFormat := (cache.get now lg).1.logFormat,
            cache := (cache.get now lg).2, failed := false }) ∧
      (∀ f id n, (cache.get now lg).1.found = false → ec2 lg = .ok (f, id, n) →
        TransformVpcFlowLogs supportedVersion cache now ec2 lg input =
          { emitted := parseAll f input, flowLogsFormat := f,
            cache := ((cache.get now lg).2).set now lg f id n, failed := false } ∧
        cacheFind
          (TransformVpcFlowLogs supportedVersion cache now ec2 lg input).cache.entries lg =
          some ⟨f, id, n, now⟩)) := by
  refine ⟨by decide, ?_, ?_⟩
  · intro h
    rw [TransformVpcFlowLogs, if_neg (by simp [h])]
  · intro h
    constructor
    · intro hfound
      rw [TransformVpcFlowLogs, if_pos h]
      simp only [getFlowLogFormatCached_hit cache now ec2 lg hfound]
    · intro f id n hfound hec2
      have hm := getFlowLogFormatCached_miss cache now ec2 lg f id n hfound hec2
      have ht : TransformVpcFlowLogs supportedVersion cache now ec2 lg input =
          { emitted := parseAll f input, flowLogsFormat := f,
            cache := ((cache.get now lg).2).set now lg f id n, failed := false } := by
        rw [TransformVpcFlowLogs, if_pos h]
        simp only [hm]
      refine ⟨ht, ?_⟩
      rw [ht]
      exact cacheFind_set_same _ now lg f id n

/-- Witness for C1 (amended): the production-constant branch on a fresh
cache, and the guarded branch at supported version 3 — a miss against the
fresh cache that queries the demonstration provider and populates. -/
theorem transform_format_resolution_witness :
    TransformVpcFlowLogs VpcFlowLogsSupportedVersion ⟨[], 600⟩ 0 ec2demo ("grp".data) [] =
      { emitted := parseAll [] [], flowLogsFormat := [], cache := ⟨[], 600⟩,
        failed := false } ∧
    (TransformVpcFlowLogs ("3".data) ⟨[], 600⟩ 0 ec2demo ("grp".data) [] =
      { emitted := parseAll ("${interface-id} ${srcaddr}".data) [],
        flowLogsFormat := "${interface-id} ${srcaddr}".data,
        cache := ((FlowLogFormatCache.get ⟨[], 600⟩ 0 ("grp".data)).2).set 0 ("grp".data)
          ("${interface-id} ${srcaddr}".data) ("fl-1".data) 1, failed := false } ∧
      cacheFind
        (TransformVpcFlowLogs ("3".data) ⟨[], 600⟩ 0 ec2demo ("grp".data) []).cache.entries
        ("grp".data) =
        some ⟨"${interface-id} ${srcaddr}".data, "fl-1".data, 1, 0⟩) := by
  have h1 := (transform_format_resolution VpcFlowLogsSupportedVersion ⟨[], 600⟩ 0 ec2demo
    ("grp".data) []).2.1 (by decide)
  have h2 := ((transform_format_resolution ("3".data) ⟨[], 600⟩ 0 ec2demo
    ("grp".data) []).2.2 (by decide)).2 ("${interface-id} ${srcaddr}".data) ("fl-1".data) 1
    (by decide) rfl
  exact ⟨h1, h2⟩
